import Mathlib

/-!
# A shallow embedding of `SharedPtr.hpp` (namespace `cs540`)

The header defines a reference-counted handle `SharedPtr<T>` and its
`ControlBlock`.  The embedding keeps an explicit heap of control blocks and an
explicit store of handle objects:

* an object address is a natural number, `0` standing for `nullptr`;
* a `ControlBlock *` is `none` for `nullptr` and `some b` for the block that was
  the `b`-th one returned by `new`; a block cell is `none` once `delete` has run;
* a template argument (`T`, `U`) is an identifier of type `TypeId`; a handle
  records its own static type so that overload resolution between the plain and
  the member-template operations can be read off the operands;
* undefined behaviour (a member call through a null or dangling block pointer,
  deleting a block twice, using a destroyed handle) is a `Fault`.

Two logs record what the heap cannot show afterwards: the calls of
`valuePtrDestructor<U>(ptr)` and the values returned by `getRefCount()`.
-/

namespace cs540

/-- An object address; `0` is `nullptr`. -/
abbrev Ptr := Nat

/-- A template type argument. -/
abbrev TypeId := Nat

/-- Two's complement wrap-around of `std::atomic_int` arithmetic (32 bits). -/
def wrapInt (x : Int) : Int := (x + 2147483648) % 4294967296 - 2147483648

/-- The call `valuePtrDestructor<T>(ptr)`, i.e. `delete static_cast<const T *>(ptr)`,
recorded at the end of the log of destructor calls. -/
def valuePtrDestructor (T : TypeId) (ptr : Ptr) (log : List (Ptr × TypeId)) :
    List (Ptr × TypeId) :=
  log ++ [(ptr, T)]

/-- The class `ControlBlock`.  `destructor` is `none` while the function pointer
has never been assigned. -/
structure ControlBlock where
  destructor : Option TypeId
  refCount : Int
  valuePtr : Ptr
deriving DecidableEq, Repr

namespace ControlBlock

/-- The constructors `ControlBlock()` (with `ptr = 0`) and `ControlBlock(void *ptr)`:
the count is stored as `0`, the destructor is left unassigned. -/
def new (ptr : Ptr) : ControlBlock :=
  { destructor := none, refCount := 0, valuePtr := ptr }

/-- Member `increment`: `refCount.fetch_add(1)`. -/
def increment (cb : ControlBlock) : ControlBlock :=
  { cb with refCount := wrapInt (cb.refCount + 1) }

/-- Member `decrement`: `refCount.fetch_sub(1)`. -/
def decrement (cb : ControlBlock) : ControlBlock :=
  { cb with refCount := wrapInt (cb.refCount - 1) }

/-- Member `getRefCount`: `refCount.load()`. -/
def getRefCount (cb : ControlBlock) : Int := cb.refCount

/-- The destructor `~ControlBlock()`: the stored destructor is called on the
stored pointer when both are set. -/
def runDestructor (cb : ControlBlock) (log : List (Ptr × TypeId)) : List (Ptr × TypeId) :=
  if cb.valuePtr ≠ 0 then
    match cb.destructor with
    | some U => valuePtrDestructor U cb.valuePtr log
    | none => log
  else log

end ControlBlock

/-- The class template `SharedPtr<T>`: its two data members, and the template
argument `T`. -/
structure SharedPtr where
  T : TypeId
  valuePtr : Ptr
  refCounter : Option Nat
deriving DecidableEq, Repr

/-- Undefined behaviour the embedding detects. -/
inductive Fault where
  | nullDeref
  | useAfterFree
  | doubleFree
  | deadHandle
deriving DecidableEq, Repr

deriving instance DecidableEq for Except

/-- Program state: the heap of control blocks in allocation order (`none` for a
deleted block), the handle objects in construction order (`none` for a destroyed
handle), the calls of `valuePtrDestructor` so far and the values returned by
`getRefCount()` so far, both oldest first. -/
structure State where
  blocks : List (Option ControlBlock)
  handles : List (Option SharedPtr)
  deleted : List (Ptr × TypeId)
  loads : List Int
deriving DecidableEq, Repr

namespace State

/-- The state of a program that has not constructed anything yet. -/
def empty : State := { blocks := [], handles := [], deleted := [], loads := [] }

/-- Dereference a `ControlBlock *`. -/
def block (s : State) (r : Option Nat) : Except Fault (Nat × ControlBlock) :=
  match r with
  | none => .error .nullDeref
  | some b =>
    match s.blocks[b]? with
    | some (some cb) => .ok (b, cb)
    | _ => .error .useAfterFree

/-- The expression `new ControlBlock(ptr)`: a fresh cell and its address. -/
def newControlBlock (s : State) (ptr : Ptr) : State × Nat :=
  ({ s with blocks := s.blocks ++ [some (ControlBlock.new ptr)] }, s.blocks.length)

/-- The call `r->increment()`. -/
def increment (s : State) (r : Option Nat) : Except Fault State :=
  match s.block r with
  | .ok (b, cb) => .ok { s with blocks := s.blocks.set b (some cb.increment) }
  | .error e => .error e

/-- The call `r->decrement()`. -/
def decrement (s : State) (r : Option Nat) : Except Fault State :=
  match s.block r with
  | .ok (b, cb) => .ok { s with blocks := s.blocks.set b (some cb.decrement) }
  | .error e => .error e

/-- The call `r->getRefCount()`; the value returned is also logged. -/
def getRefCount (s : State) (r : Option Nat) : Except Fault (Int × State) :=
  match s.block r with
  | .ok (_, cb) => .ok (cb.getRefCount, { s with loads := s.loads ++ [cb.getRefCount] })
  | .error e => .error e

/-- The assignment `r->destructor = valuePtrDestructor<U>`. -/
def setDestructor (s : State) (r : Option Nat) (U : TypeId) : Except Fault State :=
  match s.block r with
  | .ok (b, cb) => .ok { s with blocks := s.blocks.set b (some { cb with destructor := some U }) }
  | .error e => .error e

/-- The statement `delete r` for a non-null `r`: runs `~ControlBlock()` and
releases the cell. -/
def delete (s : State) (b : Nat) : Except Fault State :=
  match s.blocks[b]? with
  | some (some cb) =>
    .ok { s with blocks := s.blocks.set b none, deleted := cb.runDestructor s.deleted }
  | _ => .error .doubleFree

/-- Read a handle object. -/
def handle (s : State) (i : Nat) : Except Fault SharedPtr :=
  match s.handles[i]? with
  | some (some h) => .ok h
  | _ => .error .deadHandle

/-- Overwrite a handle object. -/
def setHandle (s : State) (i : Nat) (h : SharedPtr) : State :=
  { s with handles := s.handles.set i (some h) }

/-- A newly constructed handle object; its index is the previous number of handles. -/
def pushHandle (s : State) (h : SharedPtr) : State :=
  { s with handles := s.handles ++ [some h] }

/-- Whether a slot of the handle store is a live handle whose `refCounter` is block `b`. -/
def aliases (b : Nat) : Option SharedPtr → Bool
  | some h => decide (h.refCounter = some b)
  | none => false

/-- Number of live handles whose `refCounter` is block `b`. -/
def aliasCount (s : State) (b : Nat) : Nat :=
  s.handles.countP (aliases b)

/-- The count stored in block `b`, when the block has been allocated and not deleted. -/
def count (s : State) (b : Nat) : Option Int :=
  match s.blocks[b]? with
  | some (some cb) => some cb.refCount
  | _ => none

/-- The block pointer `r` is null or points to a block that has not been deleted. -/
def nullOrLive (s : State) (r : Option Nat) : Bool :=
  match r with
  | none => true
  | some b => (s.count b).isSome

end State

/-! ## Member functions of `SharedPtr<T>`

Every function takes the state and the index of the handle object it is called
on (`this`), or of its argument, and returns the new state or the fault. -/

/-- The protected member `controlBlockdestructor()`. -/
def controlBlockdestructor (s : State) (this : Nat) : Except Fault State := do
  let h ← s.handle this
  match h.refCounter with
  | some b =>
    let s ← s.delete b
    pure (s.setHandle this { h with refCounter := none })
  | none => pure s

/-- The statements `refCounter->decrement(); if (refCounter->getRefCount() <= 0)
controlBlockdestructor();` with which the assignment operators and both `reset`
overloads give up the current block. -/
def decrementAndCheck (s : State) (this : Nat) : Except Fault State := do
  let h ← s.handle this
  let s ← s.decrement h.refCounter
  let (c, s) ← s.getRefCount h.refCounter
  if c ≤ 0 then controlBlockdestructor s this else pure s

/-- The default constructor `SharedPtr()`, for a handle of static type `T`. -/
def defaultCtor (s : State) (T : TypeId) : State :=
  let (s, b) := s.newControlBlock 0
  s.pushHandle { T := T, valuePtr := 0, refCounter := some b }

/-- The constructor `SharedPtr(U *value)`, for a handle of static type `T`. -/
def rawCtor (s : State) (T U : TypeId) (value : Ptr) : Except Fault State := do
  let (s, b) := s.newControlBlock value
  let s := s.pushHandle { T := T, valuePtr := value, refCounter := some b }
  let s ← s.increment (some b)
  s.setDestructor (some b) U

/-- The copy constructors, for a new handle of static type `T` copied from handle
`p`: `SharedPtr(const SharedPtr &p)` when `p` has static type `T`, and the member
template `SharedPtr(const SharedPtr<U> &p)` otherwise. -/
def copyCtor (s : State) (T : TypeId) (p : Nat) : Except Fault State := do
  let hp ← s.handle p
  let s := s.pushHandle { T := T, valuePtr := hp.valuePtr, refCounter := hp.refCounter }
  if hp.refCounter ≠ none then
    if hp.T = T then
      s.increment hp.refCounter
    else
      let s ← s.setDestructor hp.refCounter hp.T
      s.increment hp.refCounter
  else pure s

/-- The move constructors, for a new handle of static type `T` moved from handle
`p`: `SharedPtr(SharedPtr &&p)` when `p` has static type `T`, and the member
template `SharedPtr(SharedPtr<U> &&p)` otherwise. -/
def moveCtor (s : State) (T : TypeId) (p : Nat) : Except Fault State := do
  let hp ← s.handle p
  let s := s.pushHandle { T := T, valuePtr := hp.valuePtr, refCounter := hp.refCounter }
  let s ← if hp.T ≠ T ∧ hp.refCounter ≠ none then s.setDestructor hp.refCounter hp.T
          else pure s
  pure (s.setHandle p { hp with valuePtr := 0, refCounter := none })

/-- The copy assignments `*this = p`: `operator=(const SharedPtr &p)` when both
handles have the same static type, the member template
`operator=(const SharedPtr<U> &p)` otherwise. -/
def copyAssign (s : State) (this p : Nat) : Except Fault State := do
  let h ← s.handle this
  let hp ← s.handle p
  if hp.T = h.T then
    if this ≠ p then
      let s ← decrementAndCheck s this
      let hp ← s.handle p
      let s := s.setHandle this { h with valuePtr := hp.valuePtr, refCounter := hp.refCounter }
      if hp.refCounter ≠ none then s.increment hp.refCounter else pure s
    else pure s
  else
    let s ← decrementAndCheck s this
    let hp ← s.handle p
    let s := s.setHandle this { h with valuePtr := hp.valuePtr, refCounter := hp.refCounter }
    if hp.refCounter ≠ none then
      let s ← s.increment hp.refCounter
      s.setDestructor hp.refCounter hp.T
    else pure s

/-- The move assignments `*this = std::move(p)`: `operator=(SharedPtr &&p)` when
both handles have the same static type, the member template
`operator=(SharedPtr<U> &&p)` otherwise.  `p` is read again after the release
because `p` may be `*this`. -/
def moveAssign (s : State) (this p : Nat) : Except Fault State := do
  let h ← s.handle this
  let s ← decrementAndCheck s this
  let hp ← s.handle p
  let s := s.setHandle this { h with valuePtr := hp.valuePtr, refCounter := hp.refCounter }
  let s ← if hp.T ≠ h.T ∧ hp.refCounter ≠ none then s.setDestructor hp.refCounter hp.T
          else pure s
  pure (s.setHandle p { hp with valuePtr := 0, refCounter := none })

/-- The member `reset()`. -/
def reset (s : State) (this : Nat) : Except Fault State := do
  let h ← s.handle this
  if h.refCounter ≠ none then
    let s ← decrementAndCheck s this
    pure (s.setHandle this { h with valuePtr := 0, refCounter := none })
  else
    pure (s.setHandle this { h with valuePtr := 0, refCounter := none })

/-- The member template `reset(U *p)`. -/
def resetPtr (s : State) (this : Nat) (U : TypeId) (p : Ptr) : Except Fault State := do
  let h ← s.handle this
  let s ← if h.refCounter ≠ none then decrementAndCheck s this else pure s
  let (s, b) := s.newControlBlock p
  let s := s.setHandle this { h with valuePtr := p, refCounter := some b }
  if p ≠ 0 then
    let s ← s.increment (some b)
    s.setDestructor (some b) U
  else pure s

/-- The destructor `~SharedPtr()`: `reset()`, after which the handle object is gone. -/
def destroy (s : State) (this : Nat) : Except Fault State := do
  let s ← reset s this
  pure { s with handles := s.handles.set this none }

/-! ## Observers -/

namespace SharedPtr

/-- Member `get()`. -/
def get (h : SharedPtr) : Ptr := h.valuePtr

/-- The conversion `explicit operator bool()`. -/
def toBool (h : SharedPtr) : Bool := decide (h.valuePtr ≠ 0)

end SharedPtr

/-! ## Non-member functions -/

/-- The template `operator==(const SharedPtr<T1> &, const SharedPtr<T2> &)`. -/
def opEq (p1 p2 : SharedPtr) : Bool := decide (p1.valuePtr = p2.valuePtr)

/-- The template `operator==(const SharedPtr<T> &, std::nullptr_t)`. -/
def opEqNull (p1 : SharedPtr) : Bool := decide (p1.valuePtr = 0)

/-- The template `operator==(std::nullptr_t, const SharedPtr<T> &)`. -/
def opNullEq (p2 : SharedPtr) : Bool := decide (0 = p2.valuePtr)

/-- The template `operator!=(const SharedPtr<T1> &, const SharedPtr<T2> &)`. -/
def opNe (p1 p2 : SharedPtr) : Bool := decide (p1.valuePtr = p2.valuePtr)

/-- The template `operator!=(const SharedPtr<T> &, std::nullptr_t)`. -/
def opNeNull (p1 : SharedPtr) : Bool := decide (p1.valuePtr = 0)

/-- The template `operator!=(std::nullptr_t, const SharedPtr<T> &)`. -/
def opNullNe (p2 : SharedPtr) : Bool := decide (0 = p2.valuePtr)

/-- The function template `static_pointer_cast<T>(sp)`.  The local `newSp` is
default-constructed, which allocates a block, before its members are overwritten;
the returned handle is the new handle object. -/
def static_pointer_cast (s : State) (T : TypeId) (sp : Nat) : Except Fault State := do
  let hsp ← s.handle sp
  let (s, _) := s.newControlBlock 0
  let newSp : SharedPtr := { T := T, valuePtr := hsp.get, refCounter := hsp.refCounter }
  let s ← s.increment newSp.refCounter
  pure (s.pushHandle newSp)

/-- The function template `dynamic_pointer_cast<T>(sp)`.  `castOk` is the outcome
of the run-time check of `dynamic_cast<T *>` on a non-null pointer. -/
def dynamic_pointer_cast (s : State) (T : TypeId) (sp : Nat) (castOk : Bool) :
    Except Fault State := do
  let hsp ← s.handle sp
  let (s, _) := s.newControlBlock 0
  let newSp : SharedPtr :=
    { T := T, valuePtr := if castOk then hsp.get else 0, refCounter := hsp.refCounter }
  let s ← s.increment newSp.refCounter
  pure (s.pushHandle newSp)

/-! ## Programs: sequences of operations -/

/-- One public operation on the handles of a program. -/
inductive Op where
  | defaultCtor (T : TypeId)
  | rawCtor (T U : TypeId) (value : Ptr)
  | copyCtor (T : TypeId) (p : Nat)
  | moveCtor (T : TypeId) (p : Nat)
  | copyAssign (this p : Nat)
  | moveAssign (this p : Nat)
  | reset (this : Nat)
  | resetPtr (this : Nat) (U : TypeId) (p : Ptr)
  | destroy (this : Nat)
  | staticCast (T : TypeId) (sp : Nat)
  | dynamicCast (T : TypeId) (sp : Nat) (castOk : Bool)
deriving DecidableEq, Repr

/-- Execute one operation. -/
def step (s : State) : Op → Except Fault State
  | .defaultCtor T => .ok (defaultCtor s T)
  | .rawCtor T U value => rawCtor s T U value
  | .copyCtor T p => copyCtor s T p
  | .moveCtor T p => moveCtor s T p
  | .copyAssign this p => copyAssign s this p
  | .moveAssign this p => moveAssign s this p
  | .reset this => reset s this
  | .resetPtr this U p => resetPtr s this U p
  | .destroy this => destroy s this
  | .staticCast T sp => static_pointer_cast s T sp
  | .dynamicCast T sp castOk => dynamic_pointer_cast s T sp castOk

/-- Execute a sequence of operations, stopping at the first fault. -/
def run (s : State) : List Op → Except Fault State
  | [] => .ok s
  | op :: ops =>
    match step s op with
    | .ok s1 => run s1 ops
    | .error e => .error e

/-! ## Two threads in `reset()`

The count is a `std::atomic_int`, so two threads that release two different handles of
one block interleave at the atomic operations `fetch_sub` (in `decrement`) and `load`
(in `getRefCount`). -/

/-- Where a thread that executes `reset()` stands: before the first statement, after
`refCounter->decrement()`, after `refCounter->getRefCount()` has returned `c`, or at
the end. -/
inductive ResetPc where
  | start
  | decremented
  | loaded (c : Int)
  | done
deriving DecidableEq, Repr

/-- The next action of a thread that executes `reset()` on handle `this`: the test
`if (refCounter)` with `refCounter->decrement()`; then `refCounter->getRefCount()`; then
the test `<= 0` of the value read, with `controlBlockdestructor()`, and the two
assignments of `nullptr`. -/
def resetStep (s : State) (this : Nat) : ResetPc → Except Fault (State × ResetPc)
  | .start => do
    let h ← s.handle this
    if h.refCounter ≠ none then
      let s ← s.decrement h.refCounter
      pure (s, .decremented)
    else
      pure (s.setHandle this { h with valuePtr := 0, refCounter := none }, .done)
  | .decremented => do
    let h ← s.handle this
    let (c, s) ← s.getRefCount h.refCounter
    pure (s, .loaded c)
  | .loaded c => do
    let s ← if c ≤ 0 then controlBlockdestructor s this else pure s
    let h ← s.handle this
    pure (s.setHandle this { h with valuePtr := 0, refCounter := none }, .done)
  | .done => pure (s, .done)

/-- Two threads, the first in `reset()` on handle `i` and the second in `reset()` on
handle `j`, run under a schedule that names the thread taking the next action (`false`
the first, `true` the second). -/
def interleave (i j : Nat) : State → ResetPc → ResetPc → List Bool →
    Except Fault (State × ResetPc × ResetPc)
  | s, p, q, [] => .ok (s, p, q)
  | s, p, q, false :: rest =>
    match resetStep s i p with
    | .ok (s1, p1) => interleave i j s1 p1 q rest
    | .error e => .error e
  | s, p, q, true :: rest =>
    match resetStep s j q with
    | .ok (s1, q1) => interleave i j s1 p q1 rest
    | .error e => .error e

/-! ## Classes of programs and state invariants used below -/

/-- The operations that only share, hand over or give up an existing block: copy
construction, move construction, `reset()` and destruction of a handle. -/
def Op.sharesOrReleases : Op → Bool
  | .copyCtor _ _ => true
  | .moveCtor _ _ => true
  | .reset _ => true
  | .destroy _ => true
  | _ => false

/-- The states of a program whose only block is block `0`, created by
`SharedPtr(U *value)`: every live handle holds block `0` or no block; while the block
is live it stores `value` and a destructor, its count is the number of handles holding
it, which is positive, and no destructor call has happened; once it is deleted no
handle holds it and exactly one destructor call, on `value`, has happened. -/
def SoleBlock (value : Ptr) (s : State) : Prop :=
  (∀ (i : Nat) (h : SharedPtr), s.handles[i]? = some (some h) →
    h.refCounter = none ∨ h.refCounter = some 0) ∧
  ((∃ cb, s.blocks = [some cb] ∧ cb.valuePtr = value ∧ cb.destructor ≠ none ∧
      cb.refCount = s.aliasCount 0 ∧ 0 < s.aliasCount 0 ∧ s.deleted = []) ∨
   (s.blocks = [none] ∧ s.aliasCount 0 = 0 ∧ ∃ V, s.deleted = [(value, V)]))

/-- The counting invariant of the whole interface.  For every live block the count is
not negative and at most the number of live handles holding the block; a block that
stores an object address has exactly that number as its count, a block that stores
`nullptr` (the block of `SharedPtr()` or of `reset(nullptr)`) may count one less.
Every block pointer held by a live handle has been returned by `new`, and every value
`getRefCount()` has returned is at least `-1`. -/
def Counted (s : State) : Prop :=
  (∀ (b : Nat) (cb : ControlBlock), s.blocks[b]? = some (some cb) →
      0 ≤ cb.refCount ∧ cb.refCount ≤ s.aliasCount b ∧
      (s.aliasCount b : Int) ≤ cb.refCount + (if cb.valuePtr = 0 then 1 else 0)) ∧
  (∀ (i : Nat) (h : SharedPtr), s.handles[i]? = some (some h) →
      ∀ b, h.refCounter = some b → b < s.blocks.length) ∧
  (∀ x ∈ s.loads, (-1 : Int) ≤ x)


/-! ## Evaluation lemmas for the building blocks -/

theorem countP_set_add {α : Type} (p : α → Bool) (l : List α) (i : Nat) (x old : α)
    (h : l[i]? = some old) :
    (l.set i x).countP p + (if p old then 1 else 0) = l.countP p + (if p x then 1 else 0) := by
  induction l generalizing i with
  | nil => simp at h
  | cons a t ih =>
    cases i with
    | zero =>
      simp at h
      subst h
      simp [List.countP_cons]
      omega
    | succ j =>
      simp at h
      have := ih j h
      simp [List.countP_cons]
      omega

theorem lt_length_of_getElem_some {α : Type} {l : List α} {i : Nat} {x : α} (h : l[i]? = some x) :
    i < l.length := by
  by_contra hge
  simp [List.getElem?_eq_none (Nat.le_of_not_lt hge)] at h

theorem handle_eq_ok {s : State} {i : Nat} {h : SharedPtr} :
    s.handle i = .ok h ↔ s.handles[i]? = some (some h) := by
  unfold State.handle
  split
  · rename_i h' heq
    simp [heq]
  · rename_i hne
    constructor
    · intro h1; cases h1
    · intro h1; exact absurd h1 (hne h)

theorem decrementAndCheck_live (s : State) (i b : Nat) (h : SharedPtr) (cb : ControlBlock)
    (hh : s.handles[i]? = some (some h)) (hr : h.refCounter = some b)
    (hb : s.blocks[b]? = some (some cb)) :
    decrementAndCheck s i = .ok
      (if cb.decrement.refCount ≤ 0 then
        { blocks := s.blocks.set b none
          handles := s.handles.set i (some { h with refCounter := none })
          deleted := cb.decrement.runDestructor s.deleted
          loads := s.loads ++ [cb.decrement.refCount] }
      else
        { s with blocks := s.blocks.set b (some cb.decrement)
                 loads := s.loads ++ [cb.decrement.refCount] }) := by
  have hlt : b < s.blocks.length := lt_length_of_getElem_some hb
  simp [decrementAndCheck, State.handle, hh, hr, State.decrement, State.block, hb,
    State.getRefCount, bind, Except.bind, hlt, ControlBlock.getRefCount]
  split
  · simp [controlBlockdestructor, State.handle, hh, hr, State.delete, hlt, bind, Except.bind,
      State.setHandle, pure, Except.pure]
  · rfl

/-! ## Claims settled by evaluating the code -/

/-- C2 (the code departs from the claim): `SharedPtr<1> a(new 2)` binds the destroy
operation to type `2`; the converting copy `SharedPtr<0> c(a)` rebinds it to `1`, the
static type of `a`, and after both handles are destroyed the object has been deleted
through `valuePtrDestructor<1>`. -/
theorem convertingCopy_rebinds_destructor :
    run State.empty [.rawCtor 1 2 100] =
      .ok { blocks := [some { destructor := some 2, refCount := 1, valuePtr := 100 }]
            handles := [some { T := 1, valuePtr := 100, refCounter := some 0 }]
            deleted := [], loads := [] } ∧
    run State.empty [.rawCtor 1 2 100, .copyCtor 0 0] =
      .ok { blocks := [some { destructor := some 1, refCount := 2, valuePtr := 100 }]
            handles := [some { T := 1, valuePtr := 100, refCounter := some 0 },
                        some { T := 0, valuePtr := 100, refCounter := some 0 }]
            deleted := [], loads := [] } ∧
    run State.empty [.rawCtor 1 2 100, .copyCtor 0 0, .destroy 0, .destroy 1] =
      .ok { blocks := [none], handles := [none, none]
            deleted := [(100, 1)], loads := [1, 0] } := by
  decide

/-- C3 (the code departs from the claim): for `SharedPtr<1> a(new 1)`, whose block has
count 1, the self move-assignment `a = std::move(a)` deletes the block and the object
and leaves `a` null. -/
theorem moveAssign_self_destroys :
    run State.empty [.rawCtor 1 1 100] =
      .ok { blocks := [some { destructor := some 1, refCount := 1, valuePtr := 100 }]
            handles := [some { T := 1, valuePtr := 100, refCounter := some 0 }]
            deleted := [], loads := [] } ∧
    run State.empty [.rawCtor 1 1 100, .moveAssign 0 0] =
      .ok { blocks := [none]
            handles := [some { T := 1, valuePtr := 0, refCounter := none }]
            deleted := [(100, 1)], loads := [0] } ∧
    SharedPtr.toBool { T := 1, valuePtr := 0, refCounter := none } = false := by
  decide

/-- C4: the same-type copy assignment of a live handle to itself returns without
changing anything: the handle, every block (count and destroy binding included) and
the log of destructor calls are what they were. -/
theorem copyAssign_self (s : State) (a : Nat) (h : SharedPtr) (ha : s.handle a = .ok h) :
    copyAssign s a a = .ok s := by
  simp [copyAssign, ha, bind, Except.bind, pure, Except.pure]

theorem copyAssign_self_witness :
    State.handle
        { blocks := [some { destructor := some 1, refCount := 1, valuePtr := 100 }]
          handles := [some { T := 1, valuePtr := 100, refCounter := some 0 }]
          deleted := [], loads := [] } 0
      = .ok { T := 1, valuePtr := 100, refCounter := some 0 } ∧
    copyAssign
        { blocks := [some { destructor := some 1, refCount := 1, valuePtr := 100 }]
          handles := [some { T := 1, valuePtr := 100, refCounter := some 0 }]
          deleted := [], loads := [] } 0 0
      = .ok { blocks := [some { destructor := some 1, refCount := 1, valuePtr := 100 }]
              handles := [some { T := 1, valuePtr := 100, refCounter := some 0 }]
              deleted := [], loads := [] } :=
  ⟨by decide, copyAssign_self _ 0 { T := 1, valuePtr := 100, refCounter := some 0 } (by decide)⟩

/-- C5 (the code departs from the claim): every `operator!=` returns what the matching
`operator==` returns; for handles built from the addresses 100 and 200 `!=` is false,
and for a non-null handle both comparisons against `nullptr` with `!=` are false. -/
theorem opNe_same_as_opEq :
    (∀ p1 p2 : SharedPtr, opNe p1 p2 = opEq p1 p2) ∧
    (∀ p : SharedPtr, opNeNull p = opEqNull p ∧ opNullNe p = opNullEq p) ∧
    run State.empty [.rawCtor 1 1 100, .rawCtor 1 1 200] =
      .ok { blocks := [some { destructor := some 1, refCount := 1, valuePtr := 100 },
                       some { destructor := some 1, refCount := 1, valuePtr := 200 }]
            handles := [some { T := 1, valuePtr := 100, refCounter := some 0 },
                        some { T := 1, valuePtr := 200, refCounter := some 1 }]
            deleted := [], loads := [] } ∧
    opNe { T := 1, valuePtr := 100, refCounter := some 0 }
         { T := 1, valuePtr := 200, refCounter := some 1 } = false ∧
    opNeNull { T := 1, valuePtr := 100, refCounter := some 0 } = false ∧
    opNullNe { T := 1, valuePtr := 100, refCounter := some 0 } = false :=
  ⟨fun _ _ => rfl, fun _ => ⟨rfl, rfl⟩, by decide, by decide, by decide, by decide⟩


theorem wrapInt_of_range {x : Int} (h1 : -2147483648 ≤ x) (h2 : x ≤ 2147483647) :
    wrapInt x = x := by
  unfold wrapInt
  omega

theorem count_eq_some {s : State} {b : Nat} {n : Int} :
    s.count b = some n ↔ ∃ cb, s.blocks[b]? = some (some cb) ∧ cb.refCount = n := by
  unfold State.count
  split
  · rename_i cb heq
    simp [heq]
  · rename_i hne
    constructor
    · intro h; cases h
    · rintro ⟨cb, hcb, _⟩
      exact absurd hcb (hne cb)

theorem nullOrLive_some {s : State} {b : Nat} (h : s.nullOrLive (some b) = true) :
    ∃ cb, s.blocks[b]? = some (some cb) := by
  simp only [State.nullOrLive, Option.isSome_iff_exists] at h
  obtain ⟨n, hn⟩ := h
  obtain ⟨cb, hcb, _⟩ := count_eq_some.mp hn
  exact ⟨cb, hcb⟩

theorem moveCtor_live (s : State) (T : TypeId) (p : Nat) (hp : SharedPtr)
    (hh : s.handle p = .ok hp) (hl : s.nullOrLive hp.refCounter = true) :
    ∃ s1, moveCtor s T p = .ok s1 ∧
      s1.handle p = .ok { hp with valuePtr := 0, refCounter := none } ∧
      s1.handle s.handles.length =
        .ok { T := T, valuePtr := hp.valuePtr, refCounter := hp.refCounter } ∧
      (∀ b, s1.count b = s.count b) ∧ s1.deleted = s.deleted := by
  have hh1 := handle_eq_ok.mp hh
  have hlt := lt_length_of_getElem_some hh1
  have hne : p ≠ s.handles.length := Nat.ne_of_lt hlt
  by_cases hc : hp.T ≠ T ∧ hp.refCounter ≠ none
  · obtain ⟨b, hb⟩ := Option.ne_none_iff_exists'.mp hc.2
    rw [hb] at hl
    obtain ⟨cb, hcb⟩ := nullOrLive_some hl
    have hblt := lt_length_of_getElem_some hcb
    refine ⟨_, by simp [moveCtor, hh, bind, Except.bind, pure, Except.pure, hc, hb,
      State.setDestructor, State.block, State.pushHandle, hcb, State.setHandle]; rfl, ?_, ?_, ?_, ?_⟩
    · simp [handle_eq_ok, hlt, List.getElem?_append, List.getElem?_set]
    · simp [handle_eq_ok, hlt, List.getElem?_set, hne, List.getElem?_append, hb]
    · intro b'
      simp only [State.count, List.getElem?_set]
      split_ifs with h1
      · subst h1; simp [hcb]
      · rfl
    · rfl
  · refine ⟨_, by simp [moveCtor, hh, bind, Except.bind, pure, Except.pure, hc,
      State.pushHandle, State.setHandle]; rfl, ?_, ?_, ?_, ?_⟩
    · simp [handle_eq_ok, hlt, List.getElem?_append, List.getElem?_set]
    · simp [handle_eq_ok, hlt, List.getElem?_set, hne, List.getElem?_append]
    · intro b'; rfl
    · rfl

theorem moveAssign_distinct (s : State) (a p : Nat) (ha hp : SharedPtr) (A : Nat) (n : Int)
    (hne : a ≠ p) (hha : s.handle a = .ok ha) (hhp : s.handle p = .ok hp)
    (hrA : ha.refCounter = some A) (hcA : s.count A = some n)
    (hl : s.nullOrLive hp.refCounter = true)
    (hsame : hp.refCounter = some A → 2 ≤ n ∧ n ≤ 2147483647) :
    ∃ s1, moveAssign s a p = .ok s1 ∧
      s1.handle p = .ok { hp with valuePtr := 0, refCounter := none } ∧
      s1.handle a = .ok { ha with valuePtr := hp.valuePtr, refCounter := hp.refCounter } ∧
      (∀ B, hp.refCounter = some B →
        s1.count B = if B = A then some (n - 1) else s.count B) := by
  have hha1 := handle_eq_ok.mp hha
  have hhp1 := handle_eq_ok.mp hhp
  have halt := lt_length_of_getElem_some hha1
  have hplt := lt_length_of_getElem_some hhp1
  obtain ⟨cbA, hcbA, hn⟩ := count_eq_some.mp hcA
  have hAlt := lt_length_of_getElem_some hcbA
  have hdc := decrementAndCheck_live s a A ha cbA hha1 hrA hcbA
  have hdec : cbA.decrement.refCount ≤ 0 → hp.refCounter ≠ some A := by
    intro hd hc
    have := hsame hc
    simp only [ControlBlock.decrement] at hd
    rw [wrapInt_of_range (by omega) (by omega)] at hd
    omega
  have hne' : p ≠ a := Ne.symm hne
  by_cases hc : hp.T ≠ ha.T ∧ hp.refCounter ≠ none
  · obtain ⟨B, hB⟩ := Option.ne_none_iff_exists'.mp hc.2
    rw [hB] at hl
    obtain ⟨cbB, hcbB⟩ := nullOrLive_some hl
    have hBlt := lt_length_of_getElem_some hcbB
    by_cases hd : cbA.decrement.refCount ≤ 0
    · have hBA : A ≠ B := fun h => hdec hd (by rw [hB, h])
      simp only [hd, if_true] at hdc
      simp [-List.getElem?_eq_getElem, moveAssign, hdc, bind, Except.bind, pure, Except.pure,
        State.handle, List.getElem?_set, hne, hhp1, hha1, State.setHandle, hne', hc, hB,
        State.setDestructor, State.block, hBA, Ne.symm hBA, hcbB, hplt, halt, State.count, hBlt]
    · simp only [hd, if_false] at hdc
      by_cases hBA : A = B
      · subst hBA
        simp [-List.getElem?_eq_getElem, moveAssign, hdc, bind, Except.bind, pure, Except.pure,
          State.handle, List.getElem?_set, hne, hhp1, hha1, State.setHandle, hne', hc, hB,
          State.setDestructor, State.block, hcbB, hplt, halt, State.count, hBlt]
        have := hsame hB
        simp only [ControlBlock.decrement]
        rw [wrapInt_of_range (by omega) (by omega)]
        omega
      · simp [-List.getElem?_eq_getElem, moveAssign, hdc, bind, Except.bind, pure, Except.pure,
          State.handle, List.getElem?_set, hne, hhp1, hha1, State.setHandle, hne', hc, hB,
          State.setDestructor, State.block, hBA, Ne.symm hBA, hcbB, hplt, halt, State.count, hBlt]
  · have hc' : ¬(¬hp.T = ha.T ∧ ¬hp.refCounter = none) := hc
    by_cases hd : cbA.decrement.refCount ≤ 0
    · simp only [hd, if_true] at hdc
      simp [-List.getElem?_eq_getElem, moveAssign, hdc, bind, Except.bind, pure, Except.pure,
        State.handle, List.getElem?_set, hne, hhp1, hha1, State.setHandle, hne', hc',
        hplt, halt, State.count]
      intro B hB
      have hBA : B ≠ A := fun h => hdec hd (by rw [hB, h])
      simp [hBA, Ne.symm hBA]
    · simp only [hd, if_false] at hdc
      simp [-List.getElem?_eq_getElem, moveAssign, hdc, bind, Except.bind, pure, Except.pure,
        State.handle, List.getElem?_set, hne, hhp1, hha1, State.setHandle, hne', hc',
        hplt, halt, State.count]
      intro B hB
      by_cases hBA : B = A
      · subst hBA
        have := hsame hB
        simp [hAlt, ControlBlock.decrement]
        rw [wrapInt_of_range (by omega) (by omega)]
        omega
      · simp [hBA, Ne.symm hBA]


/-- C6 (the claim as stated fails): `a` and `p` are distinct handles on one block of
count 2; after `a = std::move(p)` the block's count is 1, not 2. -/
theorem moveAssign_shared_block_count_drops :
    run State.empty [.rawCtor 1 1 100, .copyCtor 1 0] =
      .ok { blocks := [some { destructor := some 1, refCount := 2, valuePtr := 100 }]
            handles := [some { T := 1, valuePtr := 100, refCounter := some 0 },
                        some { T := 1, valuePtr := 100, refCounter := some 0 }]
            deleted := [], loads := [] } ∧
    moveAssign
        { blocks := [some { destructor := some 1, refCount := 2, valuePtr := 100 }]
          handles := [some { T := 1, valuePtr := 100, refCounter := some 0 },
                      some { T := 1, valuePtr := 100, refCounter := some 0 }]
          deleted := [], loads := [] } 0 1 =
      .ok { blocks := [some { destructor := some 1, refCount := 1, valuePtr := 100 }]
            handles := [some { T := 1, valuePtr := 100, refCounter := some 0 },
                        some { T := 1, valuePtr := 0, refCounter := none }]
            deleted := [], loads := [1] } := by
  decide

/-- C6 (as amended): let `p` be a live handle whose block pointer is null or points to
a live block.  Move construction from `p` succeeds, leaves `p` null (`get()` null,
boolean conversion false, equal to `nullptr`, block pointer null), gives the new handle
`p`'s previous address and block, and changes no count.  Move assignment
`a = std::move(p)` to a distinct handle `a` holding a live block `A` does the same for
`p` and `a`; the count of `p`'s previous block is unchanged when that block is not `A`,
and is one less than before when it is `A` (the case needs a count of at least 2 that
fits an `int`). -/
theorem move_postcondition (s : State) (p : Nat) (hp : SharedPtr)
    (hh : s.handle p = .ok hp) (hl : s.nullOrLive hp.refCounter = true) :
    (∀ T, ∃ s1 src dst, moveCtor s T p = .ok s1 ∧
        s1.handle p = .ok src ∧ s1.handle s.handles.length = .ok dst ∧
        src.get = 0 ∧ src.toBool = false ∧ opEqNull src = true ∧ opNullEq src = true ∧
        src.refCounter = none ∧
        dst.T = T ∧ dst.get = hp.get ∧ dst.refCounter = hp.refCounter ∧
        ∀ b, s1.count b = s.count b) ∧
    (∀ a ha A n, a ≠ p → s.handle a = .ok ha → ha.refCounter = some A →
        s.count A = some n → (hp.refCounter = some A → 2 ≤ n ∧ n ≤ 2147483647) →
      ∃ s1 src dst, moveAssign s a p = .ok s1 ∧
        s1.handle p = .ok src ∧ s1.handle a = .ok dst ∧
        src.get = 0 ∧ src.toBool = false ∧ opEqNull src = true ∧ opNullEq src = true ∧
        src.refCounter = none ∧
        dst.T = ha.T ∧ dst.get = hp.get ∧ dst.refCounter = hp.refCounter ∧
        ∀ B, hp.refCounter = some B →
          s1.count B = if B = A then some (n - 1) else s.count B) := by
  constructor
  · intro T
    obtain ⟨s1, h1, h2, h3, h4, _⟩ := moveCtor_live s T p hp hh hl
    exact ⟨s1, _, _, h1, h2, h3, rfl, rfl, rfl, rfl, rfl, rfl, rfl, rfl, h4⟩
  · intro a ha A n hne hha hrA hcA hsame
    obtain ⟨s1, h1, h2, h3, h4⟩ := moveAssign_distinct s a p ha hp A n hne hha hh hrA hcA hl hsame
    exact ⟨s1, _, _, h1, h2, h3, rfl, rfl, rfl, rfl, rfl, rfl, rfl, rfl, h4⟩

theorem move_postcondition_witness :
    State.handle
        { blocks := [some { destructor := some 1, refCount := 2, valuePtr := 100 },
                     some { destructor := some 1, refCount := 1, valuePtr := 200 }]
          handles := [some { T := 1, valuePtr := 100, refCounter := some 0 },
                      some { T := 1, valuePtr := 100, refCounter := some 0 },
                      some { T := 1, valuePtr := 200, refCounter := some 1 }]
          deleted := [], loads := [] } 1
      = .ok { T := 1, valuePtr := 100, refCounter := some 0 } ∧
    State.nullOrLive
        { blocks := [some { destructor := some 1, refCount := 2, valuePtr := 100 },
                     some { destructor := some 1, refCount := 1, valuePtr := 200 }]
          handles := [some { T := 1, valuePtr := 100, refCounter := some 0 },
                      some { T := 1, valuePtr := 100, refCounter := some 0 },
                      some { T := 1, valuePtr := 200, refCounter := some 1 }]
          deleted := [], loads := [] } (some 0) = true ∧
    (∃ s1 src dst,
      moveAssign
        { blocks := [some { destructor := some 1, refCount := 2, valuePtr := 100 },
                     some { destructor := some 1, refCount := 1, valuePtr := 200 }]
          handles := [some { T := 1, valuePtr := 100, refCounter := some 0 },
                      some { T := 1, valuePtr := 100, refCounter := some 0 },
                      some { T := 1, valuePtr := 200, refCounter := some 1 }]
          deleted := [], loads := [] } 0 1 = .ok s1 ∧
        s1.handle 1 = .ok src ∧ s1.handle 0 = .ok dst ∧
        src.get = 0 ∧ src.toBool = false ∧ opEqNull src = true ∧ opNullEq src = true ∧
        src.refCounter = none ∧
        dst.T = 1 ∧ dst.get = 100 ∧ dst.refCounter = some 0 ∧
        ∀ B, some 0 = some B → s1.count B = if B = 0 then some ((2 : Int) - 1) else
          State.count
            { blocks := [some { destructor := some 1, refCount := 2, valuePtr := 100 },
                         some { destructor := some 1, refCount := 1, valuePtr := 200 }]
              handles := [some { T := 1, valuePtr := 100, refCounter := some 0 },
                          some { T := 1, valuePtr := 100, refCounter := some 0 },
                          some { T := 1, valuePtr := 200, refCounter := some 1 }]
              deleted := [], loads := [] } B) :=
  ⟨by decide, by decide,
    (move_postcondition _ 1 { T := 1, valuePtr := 100, refCounter := some 0 }
      (by decide) (by decide)).2 0 { T := 1, valuePtr := 100, refCounter := some 0 } 0 2
      (by decide) (by decide) rfl (by decide) (fun _ => by decide)⟩

/-- C7 (the code departs from the claim): `a` is default-constructed and `b` is a
copy of it, so both hold one live block whose count is 1; in `a = b` the release step
brings the count to 0 and deletes the block that `b` still holds, and the following
`refCounter->increment()` is applied to the deleted block. -/
theorem copyAssign_shared_placeholder_faults :
    run State.empty [.defaultCtor 1, .copyCtor 1 0] =
      .ok { blocks := [some { destructor := none, refCount := 1, valuePtr := 0 }]
            handles := [some { T := 1, valuePtr := 0, refCounter := some 0 },
                        some { T := 1, valuePtr := 0, refCounter := some 0 }]
            deleted := [], loads := [] } ∧
    decrementAndCheck
        { blocks := [some { destructor := none, refCount := 1, valuePtr := 0 }]
          handles := [some { T := 1, valuePtr := 0, refCounter := some 0 },
                      some { T := 1, valuePtr := 0, refCounter := some 0 }]
          deleted := [], loads := [] } 0 =
      .ok { blocks := [none]
            handles := [some { T := 1, valuePtr := 0, refCounter := none },
                        some { T := 1, valuePtr := 0, refCounter := some 0 }]
            deleted := [], loads := [0] } ∧
    run State.empty [.defaultCtor 1, .copyCtor 1 0, .copyAssign 0 1] =
      .error .useAfterFree := by
  decide

/-- C9 (the code departs from the claim): default-construct `a`, copy `a` into `b`,
destroy `b`, destroy `a`.  Destroying `b` deletes the block while `a` still points to
it, and destroying `a` calls `decrement()` on the deleted block. -/
theorem copy_of_default_released_early :
    run State.empty [.defaultCtor 1, .copyCtor 1 0, .destroy 1] =
      .ok { blocks := [none]
            handles := [some { T := 1, valuePtr := 0, refCounter := some 0 }, none]
            deleted := [], loads := [0] } ∧
    run State.empty [.defaultCtor 1, .copyCtor 1 0, .destroy 1, .destroy 0] =
      .error .useAfterFree := by
  decide


/-! ## Exactly-once destruction of the object of a single block -/

theorem aliasCount_pos_of_handle {s : State} {i b : Nat} {h : SharedPtr}
    (hh : s.handles[i]? = some (some h)) (hr : h.refCounter = some b) :
    0 < s.aliasCount b := by
  unfold State.aliasCount
  rw [List.countP_pos_iff]
  exact ⟨some h, List.getElem?_mem hh, by simp [State.aliases, hr]⟩

theorem aliasCount_le_length (s : State) (b : Nat) : s.aliasCount b ≤ s.handles.length :=
  List.countP_le_length _

theorem holdsOnly_set {P : SharedPtr → Prop} {l : List (Option SharedPtr)}
    (hl : ∀ (i : Nat) (h : SharedPtr), l[i]? = some (some h) → P h) (i : Nat)
    (x : Option SharedPtr) (hx : ∀ h, x = some h → P h) :
    ∀ (j : Nat) (h : SharedPtr), (l.set i x)[j]? = some (some h) → P h := by
  intro j h hj
  by_cases hij : i = j
  · subst hij
    by_cases hlt : i < l.length
    · rw [List.getElem?_set_self hlt] at hj
      exact hx h (Option.some.inj hj)
    · rw [List.getElem?_eq_none (by simpa using hlt)] at hj
      cases hj
  · rw [List.getElem?_set_ne hij] at hj
    exact hl j h hj

theorem holdsOnly_push {P : SharedPtr → Prop} {l : List (Option SharedPtr)}
    (hl : ∀ (i : Nat) (h : SharedPtr), l[i]? = some (some h) → P h)
    (x : Option SharedPtr) (hx : ∀ h, x = some h → P h) :
    ∀ (j : Nat) (h : SharedPtr), (l ++ [x])[j]? = some (some h) → P h := by
  intro j h hj
  by_cases hlt : j < l.length
  · rw [List.getElem?_append_left hlt] at hj
    exact hl j h hj
  · rw [List.getElem?_append_right (by simpa using hlt)] at hj
    have hm := List.getElem?_mem hj
    simp only [List.mem_singleton] at hm
    exact hx h hm.symm

theorem aliasCount_set (s : State) (b i : Nat) (x old : Option SharedPtr)
    (h : s.handles[i]? = some old) :
    (s.handles.set i x).countP (State.aliases b) + (if State.aliases b old then 1 else 0) =
      s.aliasCount b + (if State.aliases b x then 1 else 0) :=
  countP_set_add (State.aliases b) s.handles i x old h

theorem reset_soleBlock (value : Ptr) (hv : value ≠ 0) (s : State) (i : Nat)
    (hinv : SoleBlock value s) (hlen : s.handles.length < 2147483647) :
    (∀ e, reset s i = .error e → e = .deadHandle) ∧
    (∀ s1, reset s i = .ok s1 → SoleBlock value s1 ∧ s1.handles.length = s.handles.length ∧
      ∃ h1, s1.handles[i]? = some (some h1) ∧ h1.refCounter = none) := by
  obtain ⟨hJ2, hJ3⟩ := hinv
  rcases hlook : s.handles[i]? with _ | _ | h
  · simp [reset, State.handle, hlook, bind, Except.bind]
  · simp [reset, State.handle, hlook, bind, Except.bind]
  · have hilt := lt_length_of_getElem_some hlook
    have hset := aliasCount_set s 0 i (some { T := h.T, valuePtr := 0, refCounter := none })
      (some h) hlook
    have hrefs := holdsOnly_set hJ2 i (some { T := h.T, valuePtr := 0, refCounter := none })
      (by intro h' hh'; cases hh'; exact Or.inl rfl)
    rcases hJ2 i h hlook with hr | hr
    · simp [-List.getElem?_eq_getElem, reset, State.handle, hlook, bind, Except.bind, hr, pure,
        Except.pure, State.setHandle, List.getElem?_set, hilt]
      simp [State.aliases, hr] at hset
      refine ⟨hrefs, ?_⟩
      simpa [State.aliasCount, hset] using hJ3
    · have hpos := aliasCount_pos_of_handle hlook hr
      simp [State.aliases, hr] at hset
      rcases hJ3 with ⟨cb, hb, hval, hdes, hcnt, _, hdel⟩ | ⟨_, h0, _⟩
      · have hcb : s.blocks[0]? = some (some cb) := by simp [hb]
        have hdc := decrementAndCheck_live s i 0 h cb hlook hr hcb
        have hle := aliasCount_le_length s 0
        have hdecr : cb.decrement.refCount = cb.refCount - 1 := by
          simp only [ControlBlock.decrement]
          exact wrapInt_of_range (by omega) (by omega)
        obtain ⟨V, hV⟩ := Option.ne_none_iff_exists'.mp hdes
        by_cases hd : cb.decrement.refCount ≤ 0
        · simp only [hd, if_true] at hdc
          simp [-List.getElem?_eq_getElem, reset, State.handle, hlook, bind, Except.bind, hr, pure,
            Except.pure, State.setHandle, List.getElem?_set, hilt, hdc]
          refine ⟨hrefs, Or.inr ⟨by simp [hb], ?_, V, ?_⟩⟩
          · simp only [State.aliasCount]
            omega
          · simp [ControlBlock.runDestructor, ControlBlock.decrement, hval, hv, hV, hdel,
              valuePtrDestructor]
        · simp only [hd, if_false] at hdc
          simp [-List.getElem?_eq_getElem, reset, State.handle, hlook, bind, Except.bind, hr, pure,
            Except.pure, State.setHandle, List.getElem?_set, hilt, hdc]
          refine ⟨hrefs, Or.inl ⟨cb.decrement, by simp [hb], hval, hdes, ?_, ?_, hdel⟩⟩
          · simp only [State.aliasCount]
            omega
          · simp only [State.aliasCount]
            omega
      · omega

theorem aliasCount_push (s : State) (b : Nat) (x : Option SharedPtr) :
    (s.handles ++ [x]).countP (State.aliases b) =
      s.aliasCount b + (if State.aliases b x then 1 else 0) := by
  simp [State.aliasCount, List.countP_append, List.countP_cons]

theorem aliasCount_push_of_eq (s : State) (b : Nat) (h : SharedPtr)
    (hr : h.refCounter = some b) :
    (s.handles ++ [some h]).countP (State.aliases b) = s.aliasCount b + 1 := by
  simp [State.aliasCount, List.countP_append, List.countP_cons, State.aliases, hr]

theorem aliasCount_push_of_ne (s : State) (b : Nat) (h : SharedPtr)
    (hr : h.refCounter ≠ some b) :
    (s.handles ++ [some h]).countP (State.aliases b) = s.aliasCount b := by
  simp [State.aliasCount, List.countP_append, List.countP_cons, State.aliases, hr]

theorem destroy_soleBlock (value : Ptr) (hv : value ≠ 0) (s : State) (i : Nat)
    (hinv : SoleBlock value s) (hlen : s.handles.length < 2147483647) :
    (∀ e, destroy s i = .error e → e = .deadHandle) ∧
    (∀ s1, destroy s i = .ok s1 → SoleBlock value s1 ∧ s1.handles.length = s.handles.length) := by
  obtain ⟨herr, hok⟩ := reset_soleBlock value hv s i hinv hlen
  rcases hres : reset s i with e | s1
  · simp [destroy, hres, bind, Except.bind]
    exact herr e hres
  · obtain ⟨⟨hJ2, hJ3⟩, hl, h1, hh1, hr1⟩ := hok s1 hres
    have hset := aliasCount_set s1 0 i none (some h1) hh1
    simp [State.aliases, hr1] at hset
    simp [destroy, hres, bind, Except.bind, pure, Except.pure, hl]
    refine ⟨holdsOnly_set hJ2 i none (by intro h' hh'; cases hh'), ?_⟩
    simpa [State.aliasCount, hset] using hJ3

theorem copyCtor_soleBlock (value : Ptr) (s : State) (T : TypeId) (p : Nat)
    (hinv : SoleBlock value s) (hlen : s.handles.length < 2147483647) :
    (∀ e, copyCtor s T p = .error e → e = .deadHandle) ∧
    (∀ s1, copyCtor s T p = .ok s1 →
      SoleBlock value s1 ∧ s1.handles.length = s.handles.length + 1) := by
  obtain ⟨hJ2, hJ3⟩ := hinv
  rcases hlook : s.handles[p]? with _ | _ | h
  · simp [copyCtor, State.handle, hlook, bind, Except.bind]
  · simp [copyCtor, State.handle, hlook, bind, Except.bind]
  · have hrefs := holdsOnly_push hJ2 (some ⟨T, h.valuePtr, h.refCounter⟩)
      (by intro h' hh'; cases hh'; exact hJ2 p h hlook)
    rcases hJ2 p h hlook with hr | hr
    · have hpush := aliasCount_push_of_ne s 0 ⟨T, h.valuePtr, h.refCounter⟩ (by simp [hr])
      simp only [hr] at hpush hrefs
      simp [copyCtor, State.handle, hlook, bind, Except.bind, hr,
        pure, Except.pure, State.pushHandle]
      refine ⟨hrefs, ?_⟩
      simpa only [State.aliasCount, hpush] using hJ3
    · have hpos := aliasCount_pos_of_handle hlook hr
      have hpush := aliasCount_push_of_eq s 0 ⟨T, h.valuePtr, h.refCounter⟩ hr
      simp only [hr] at hpush hrefs
      rcases hJ3 with ⟨cb, hb, hval, hdes, hcnt, _, hdel⟩ | ⟨_, h0, _⟩
      · have hle := aliasCount_le_length s 0
        have hcb : s.blocks[0]? = some (some cb) := by simp [hb]
        have hincr : wrapInt (cb.refCount + 1) = cb.refCount + 1 :=
          wrapInt_of_range (by omega) (by omega)
        by_cases hT : h.T = T
        · simp [-List.getElem?_eq_getElem, copyCtor, State.handle, hlook, bind, Except.bind, hr,
            pure, Except.pure, State.pushHandle, hT, State.increment, State.block, hcb]
          refine ⟨hrefs, Or.inl ⟨cb.increment, by simp [hb], hval, hdes, ?_, ?_, hdel⟩⟩
          · simp only [State.aliasCount, ControlBlock.increment, hincr]
            omega
          · simp only [State.aliasCount]
            omega
        · simp [-List.getElem?_eq_getElem, copyCtor, State.handle, hlook, bind, Except.bind, hr,
            pure, Except.pure, State.pushHandle, hT, State.increment, State.setDestructor,
            State.block, hcb, List.getElem?_set, lt_length_of_getElem_some hcb]
          refine ⟨hrefs, Or.inl ⟨⟨some h.T, wrapInt (cb.refCount + 1), cb.valuePtr⟩,
            by simp [hb, ControlBlock.increment], hval, by simp, ?_, ?_, hdel⟩⟩
          · simp only [State.aliasCount, ControlBlock.increment, hincr]
            omega
          · simp only [State.aliasCount]
            omega
      · omega

theorem ok_cases {x : State} {P : State → Prop} {Q : Fault → Prop} (h : P x) :
    (∀ e, (Except.ok x : Except Fault State) = .error e → Q e) ∧
    (∀ s1, (Except.ok x : Except Fault State) = .ok s1 → P s1) := by
  refine ⟨fun e he => (nomatch he), fun s1 hs1 => ?_⟩
  cases hs1
  exact h

theorem moveCtor_soleBlock (value : Ptr) (s : State) (T : TypeId) (p : Nat)
    (hinv : SoleBlock value s) :
    (∀ e, moveCtor s T p = .error e → e = .deadHandle) ∧
    (∀ s1, moveCtor s T p = .ok s1 →
      SoleBlock value s1 ∧ s1.handles.length = s.handles.length + 1) := by
  obtain ⟨hJ2, hJ3⟩ := hinv
  rcases hlook : s.handles[p]? with _ | _ | h
  · simp [moveCtor, State.handle, hlook, bind, Except.bind]
  · simp [moveCtor, State.handle, hlook, bind, Except.bind]
  · have hplt := lt_length_of_getElem_some hlook
    have hrefs := holdsOnly_push
      (holdsOnly_set hJ2 p (some ⟨h.T, 0, none⟩) (by intro h' hh'; cases hh'; exact Or.inl rfl))
      (some ⟨T, h.valuePtr, h.refCounter⟩) (by intro h' hh'; cases hh'; exact hJ2 p h hlook)
    have hset := aliasCount_set s 0 p (some ⟨h.T, 0, none⟩) (some h) hlook
    have hcount : ((s.handles.set p (some (SharedPtr.mk h.T 0 none))) ++
        [some (SharedPtr.mk T h.valuePtr h.refCounter)]).countP (State.aliases 0) =
        s.aliasCount 0 := by
      rw [List.countP_append]
      rcases hJ2 p h hlook with hr | hr
      · simp [State.aliases, hr] at hset ⊢
        exact hset
      · simp [State.aliases, hr] at hset ⊢
        exact hset
    rcases hJ2 p h hlook with hr | hr
    · have hres : moveCtor s T p = .ok ⟨s.blocks,
          (s.handles.set p (some ⟨h.T, 0, none⟩)) ++ [some ⟨T, h.valuePtr, h.refCounter⟩],
          s.deleted, s.loads⟩ := by
        simp [-List.getElem?_eq_getElem, moveCtor, State.handle, hlook, bind, Except.bind, hr,
          pure, Except.pure, State.pushHandle, State.setHandle, List.set_append, hplt]
      rw [hres]
      refine ok_cases ⟨⟨hrefs, ?_⟩, by simp⟩
      simpa only [State.aliasCount, hcount] using hJ3
    · have hpos := aliasCount_pos_of_handle hlook hr
      rcases hJ3 with ⟨cb, hb, hval, hdes, hcnt, _, hdel⟩ | ⟨_, h0, _⟩
      · have hcb : s.blocks[0]? = some (some cb) := by simp [hb]
        by_cases hT : h.T = T
        · have hres : moveCtor s T p = .ok ⟨s.blocks,
              (s.handles.set p (some ⟨h.T, 0, none⟩)) ++ [some ⟨T, h.valuePtr, h.refCounter⟩],
              s.deleted, s.loads⟩ := by
            simp [-List.getElem?_eq_getElem, moveCtor, State.handle, hlook, bind, Except.bind, hr,
              pure, Except.pure, State.pushHandle, State.setHandle, List.set_append, hplt, hT]
          rw [hres]
          refine ok_cases ⟨⟨hrefs, Or.inl ⟨cb, hb, hval, hdes, ?_, ?_, hdel⟩⟩, by simp⟩
          · simp only [State.aliasCount, hcount]
            exact hcnt
          · simp only [State.aliasCount, hcount]
            exact hpos
        · have hres : moveCtor s T p = .ok ⟨[some ⟨some h.T, cb.refCount, cb.valuePtr⟩],
              (s.handles.set p (some ⟨h.T, 0, none⟩)) ++ [some ⟨T, h.valuePtr, h.refCounter⟩],
              s.deleted, s.loads⟩ := by
            simp [-List.getElem?_eq_getElem, moveCtor, State.handle, hlook, bind, Except.bind, hr,
              pure, Except.pure, State.pushHandle, State.setHandle, List.set_append, hplt, hT,
              State.setDestructor, State.block, hcb]
            simp [hb]
          rw [hres]
          refine ok_cases ⟨⟨hrefs, Or.inl ⟨_, rfl, hval, by simp, ?_, ?_, hdel⟩⟩, by simp⟩
          · simp only [State.aliasCount, hcount]
            exact hcnt
          · simp only [State.aliasCount, hcount]
            exact hpos
      · omega

theorem step_soleBlock (value : Ptr) (hv : value ≠ 0) (s : State) (op : Op)
    (hop : op.sharesOrReleases = true) (hinv : SoleBlock value s)
    (hlen : s.handles.length < 2147483647) :
    (∀ e, step s op = .error e → e = .deadHandle) ∧
    (∀ s1, step s op = .ok s1 →
      SoleBlock value s1 ∧ s1.handles.length ≤ s.handles.length + 1) := by
  cases op with
  | copyCtor T p =>
    obtain ⟨h1, h2⟩ := copyCtor_soleBlock value s T p hinv hlen
    exact ⟨h1, fun s1 hs1 => ⟨(h2 s1 hs1).1, Nat.le_of_eq (h2 s1 hs1).2⟩⟩
  | moveCtor T p =>
    obtain ⟨h1, h2⟩ := moveCtor_soleBlock value s T p hinv
    exact ⟨h1, fun s1 hs1 => ⟨(h2 s1 hs1).1, Nat.le_of_eq (h2 s1 hs1).2⟩⟩
  | reset i =>
    obtain ⟨h1, h2⟩ := reset_soleBlock value hv s i hinv hlen
    exact ⟨h1, fun s1 hs1 => ⟨(h2 s1 hs1).1, by rw [(h2 s1 hs1).2.1]; omega⟩⟩
  | destroy i =>
    obtain ⟨h1, h2⟩ := destroy_soleBlock value hv s i hinv hlen
    exact ⟨h1, fun s1 hs1 => ⟨(h2 s1 hs1).1, by rw [(h2 s1 hs1).2]; omega⟩⟩
  | defaultCtor _ => cases hop
  | rawCtor _ _ _ => cases hop
  | copyAssign _ _ => cases hop
  | moveAssign _ _ => cases hop
  | resetPtr _ _ _ => cases hop
  | staticCast _ _ => cases hop
  | dynamicCast _ _ _ => cases hop

theorem run_soleBlock (value : Ptr) (hv : value ≠ 0) (ops : List Op)
    (hops : ∀ op ∈ ops, op.sharesOrReleases = true) (s : State) (hinv : SoleBlock value s)
    (hlen : s.handles.length + ops.length < 2147483648) :
    (∀ e, run s ops = .error e → e = .deadHandle) ∧
    (∀ s1, run s ops = .ok s1 → SoleBlock value s1) := by
  induction ops generalizing s with
  | nil =>
    simp only [run]
    exact ok_cases hinv
  | cons op ops ih =>
    have hlen1 : s.handles.length < 2147483647 := by
      simp only [List.length_cons] at hlen
      omega
    obtain ⟨herr, hok⟩ := step_soleBlock value hv s op (hops op (List.mem_cons_self _ _)) hinv hlen1
    simp only [run]
    rcases hstep : step s op with e | s1
    · exact ⟨fun e1 he1 => by cases he1; exact herr e hstep, fun s2 hs2 => (nomatch hs2)⟩
    · obtain ⟨hinv1, hl1⟩ := hok s1 hstep
      exact ih (fun o ho => hops o (List.mem_cons_of_mem _ ho)) s1 hinv1 (by
        simp only [List.length_cons] at hlen
        omega)

theorem rawCtor_eq (s : State) (T U : TypeId) (value : Ptr) :
    rawCtor s T U value = .ok
      { blocks := s.blocks ++ [some { destructor := some U, refCount := 1, valuePtr := value }]
        handles := s.handles ++ [some { T := T, valuePtr := value,
                                        refCounter := some s.blocks.length }]
        deleted := s.deleted
        loads := s.loads } := by
  simp [rawCtor, State.newControlBlock, State.pushHandle, State.increment, State.setDestructor,
    State.block, bind, Except.bind, ControlBlock.new, ControlBlock.increment, wrapInt]

/-- C1: a program that builds one handle with `SharedPtr(U *value)` for a non-null
`value` and then performs any sequence of fewer than 2^31 - 2 copy constructions, move
constructions, `reset()` calls and handle destructions either uses a handle that does
not exist or is already destroyed, or runs to the end; in the final state no destructor
call has happened while some live handle holds the block, and exactly one destructor
call, on `value`, has happened once no live handle holds it. -/
theorem exactly_once_destruction (T U : TypeId) (value : Ptr) (hv : value ≠ 0)
    (ops : List Op) (hops : ∀ op ∈ ops, op.sharesOrReleases = true)
    (hlen : ops.length < 2147483646) :
    (∀ e, run State.empty (.rawCtor T U value :: ops) = .error e → e = .deadHandle) ∧
    (∀ s, run State.empty (.rawCtor T U value :: ops) = .ok s →
      (0 < s.aliasCount 0 → s.deleted = []) ∧
      (s.aliasCount 0 = 0 → ∃ V, s.deleted = [(value, V)])) := by
  have hinit : SoleBlock value
      { blocks := [some { destructor := some U, refCount := 1, valuePtr := value }]
        handles := [some { T := T, valuePtr := value, refCounter := some 0 }]
        deleted := [], loads := [] } := by
    refine ⟨?_, Or.inl ⟨_, rfl, rfl, by simp, ?_, ?_, rfl⟩⟩
    · intro i h hi
      cases i with
      | zero =>
        simp at hi
        subst hi
        exact Or.inr rfl
      | succ j => simp at hi
    · simp [State.aliasCount, State.aliases]
    · simp [State.aliasCount, State.aliases]
  obtain ⟨herr, hok⟩ := run_soleBlock value hv ops hops _ hinit (by simp; omega)
  simp only [run, step, rawCtor_eq, State.empty, List.nil_append, List.length_nil]
  refine ⟨herr, fun s hs => ?_⟩
  obtain ⟨_, hJ3⟩ := hok s hs
  rcases hJ3 with ⟨cb, _, _, _, _, hpos, hdel⟩ | ⟨_, h0, hV⟩
  · exact ⟨fun _ => hdel, fun h => by omega⟩
  · exact ⟨fun h => by omega, fun _ => hV⟩

theorem exactly_once_destruction_witness :
    ((0 < State.aliasCount
          { blocks := [some { destructor := some 2, refCount := 1, valuePtr := 100 }]
            handles := [none, some { T := 1, valuePtr := 100, refCounter := some 0 }]
            deleted := [], loads := [1] } 0 →
        State.deleted
          { blocks := [some { destructor := some 2, refCount := 1, valuePtr := 100 }]
            handles := [none, some { T := 1, valuePtr := 100, refCounter := some 0 }]
            deleted := [], loads := [1] } = []) ∧
      (State.aliasCount
          { blocks := [some { destructor := some 2, refCount := 1, valuePtr := 100 }]
            handles := [none, some { T := 1, valuePtr := 100, refCounter := some 0 }]
            deleted := [], loads := [1] } 0 = 0 →
        ∃ V, State.deleted
          { blocks := [some { destructor := some 2, refCount := 1, valuePtr := 100 }]
            handles := [none, some { T := 1, valuePtr := 100, refCounter := some 0 }]
            deleted := [], loads := [1] } = [(100, V)])) ∧
    ((0 < State.aliasCount
          { blocks := [none], handles := [none, none]
            deleted := [(100, 2)], loads := [1, 0] } 0 →
        State.deleted
          { blocks := [none], handles := [none, none]
            deleted := [(100, 2)], loads := [1, 0] } = []) ∧
      (State.aliasCount
          { blocks := [none], handles := [none, none]
            deleted := [(100, 2)], loads := [1, 0] } 0 = 0 →
        ∃ V, State.deleted
          { blocks := [none], handles := [none, none]
            deleted := [(100, 2)], loads := [1, 0] } = [(100, V)])) :=
  ⟨(exactly_once_destruction 1 2 100 (by decide) [.copyCtor 1 0, .destroy 0]
      (by decide) (by decide)).2 _ (by decide),
   (exactly_once_destruction 1 2 100 (by decide) [.copyCtor 1 0, .destroy 0, .destroy 1]
      (by decide) (by decide)).2 _ (by decide)⟩


/-! ## The counting invariant over all operations -/

theorem aliases_some (b : Nat) (h : SharedPtr) :
    State.aliases b (some h) = decide (h.refCounter = some b) := rfl

theorem aliases_none (b : Nat) : State.aliases b none = false := rfl

theorem aliasCount_eq_zero_of_ge {s : State}
    (hrefs : ∀ (i : Nat) (h : SharedPtr), s.handles[i]? = some (some h) →
      ∀ b, h.refCounter = some b → b < s.blocks.length)
    {b : Nat} (hb : s.blocks.length ≤ b) : s.aliasCount b = 0 := by
  unfold State.aliasCount
  rw [List.countP_eq_zero]
  intro x hx
  obtain ⟨i, hi⟩ := List.getElem?_of_mem hx
  cases x with
  | none => simp [State.aliases]
  | some h =>
    simp only [State.aliases, decide_eq_true_eq]
    intro hr
    have := hrefs i h hi b hr
    omega

theorem counted_refCount_le {s : State} (hc : Counted s) {b : Nat} {cb : ControlBlock}
    (hb : s.blocks[b]? = some (some cb)) :
    0 ≤ cb.refCount ∧ cb.refCount ≤ s.handles.length := by
  have h1 := hc.1 b cb hb
  have h2 := aliasCount_le_length s b
  omega

/-! ### How the number of holders changes with the handle store -/

theorem alias_set_same {s t : State} {i : Nat} {o n : Option SharedPtr} {b : Nat}
    (h1 : t.handles = s.handles.set i n) (ho : s.handles[i]? = some o)
    (hsame : State.aliases b n = State.aliases b o) :
    t.aliasCount b = s.aliasCount b := by
  have := aliasCount_set s b i n o ho
  simp only [State.aliasCount, h1, hsame] at this ⊢
  omega

theorem alias_set_gain {s t : State} {i : Nat} {o n : Option SharedPtr} {b : Nat}
    (h1 : t.handles = s.handles.set i n) (ho : s.handles[i]? = some o)
    (hold : State.aliases b o = false) (hnew : State.aliases b n = true) :
    t.aliasCount b = s.aliasCount b + 1 := by
  have := aliasCount_set s b i n o ho
  simp only [State.aliasCount, h1, hold, hnew] at this ⊢
  simpa using this

theorem alias_set_lose {s t : State} {i : Nat} {o n : Option SharedPtr} {b : Nat}
    (h1 : t.handles = s.handles.set i n) (ho : s.handles[i]? = some o)
    (hold : State.aliases b o = true) (hnew : State.aliases b n = false) :
    t.aliasCount b + 1 = s.aliasCount b := by
  have := aliasCount_set s b i n o ho
  simp only [State.aliasCount, h1, hold, hnew] at this ⊢
  simpa using this

theorem alias_push_same {s t : State} {n : Option SharedPtr} {b : Nat}
    (h1 : t.handles = s.handles ++ [n]) (hnew : State.aliases b n = false) :
    t.aliasCount b = s.aliasCount b := by
  simp [State.aliasCount, h1, List.countP_append, List.countP_cons, hnew]

theorem alias_push_gain {s t : State} {n : Option SharedPtr} {b : Nat}
    (h1 : t.handles = s.handles ++ [n]) (hnew : State.aliases b n = true) :
    t.aliasCount b = s.aliasCount b + 1 := by
  simp [State.aliasCount, h1, List.countP_append, List.countP_cons, hnew]

/-! ### Steps that keep the counting invariant -/

/-- One more holder of block `B`, and its count incremented. -/
theorem counted_gain {s s1 : State} (hc : Counted s) (B : Nat) (cb cb1 : ControlBlock)
    (hB : s.blocks[B]? = some (some cb))
    (hb1 : s1.blocks = s.blocks.set B (some cb1))
    (hcnt : cb1.refCount = cb.refCount + 1) (hvp : cb1.valuePtr = cb.valuePtr)
    (ha : ∀ b, b ≠ B → s1.aliasCount b = s.aliasCount b)
    (haB : s1.aliasCount B = s.aliasCount B + 1)
    (hr1 : ∀ (i : Nat) (h : SharedPtr), s1.handles[i]? = some (some h) →
      ∀ b, h.refCounter = some b → b < s.blocks.length)
    (hl : s1.loads = s.loads) : Counted s1 := by
  obtain ⟨hc1, hc2, hc3⟩ := hc
  refine ⟨?_, by rw [hb1, List.length_set]; exact hr1, by rw [hl]; exact hc3⟩
  intro b cb' hb'
  rw [hb1] at hb'
  by_cases hbB : B = b
  · subst hbB
    rw [List.getElem?_set_self (lt_length_of_getElem_some hB)] at hb'
    cases hb'
    have := hc1 B cb hB
    rw [hvp, haB]
    omega
  · rw [List.getElem?_set_ne hbB] at hb'
    have := hc1 b cb' hb'
    rw [ha b (Ne.symm hbB)]
    exact this

/-- One holder of block `A` less, its count decremented and the value loaded; the block
is deleted, or stays with a positive count. -/
theorem counted_lose {s s1 : State} (hc : Counted s) (A : Nat) (cb : ControlBlock)
    (cell : Option ControlBlock)
    (hA : s.blocks[A]? = some (some cb))
    (hb1 : s1.blocks = s.blocks.set A cell)
    (hcell : ∀ cb1, cell = some cb1 →
      cb1.refCount = cb.refCount - 1 ∧ 0 < cb1.refCount ∧ cb1.valuePtr = cb.valuePtr)
    (ha : ∀ b, b ≠ A → s1.aliasCount b = s.aliasCount b)
    (haA : s1.aliasCount A + 1 = s.aliasCount A)
    (hr1 : ∀ (i : Nat) (h : SharedPtr), s1.handles[i]? = some (some h) →
      ∀ b, h.refCounter = some b → b < s.blocks.length)
    (hl : s1.loads = s.loads ++ [cb.refCount - 1]) : Counted s1 := by
  obtain ⟨hc1, hc2, hc3⟩ := hc
  have hcb := hc1 A cb hA
  refine ⟨?_, by rw [hb1, List.length_set]; exact hr1, ?_⟩
  · intro b cb' hb'
    rw [hb1] at hb'
    by_cases hbA : A = b
    · subst hbA
      rw [List.getElem?_set_self (lt_length_of_getElem_some hA)] at hb'
      obtain ⟨h1, h2, h3⟩ := hcell cb' (Option.some.inj hb')
      rw [h3]
      omega
    · rw [List.getElem?_set_ne hbA] at hb'
      have := hc1 b cb' hb'
      rw [ha b (Ne.symm hbA)]
      exact this
  · intro x hx
    rw [hl, List.mem_append, List.mem_singleton] at hx
    rcases hx with hx | hx
    · exact hc3 x hx
    · omega

/-- The holders stay as they are; the blocks stay, or block `B` gets another
destructor. -/
theorem counted_same {s s1 : State} (hc : Counted s)
    (hb1 : s1.blocks = s.blocks ∨ ∃ B cb cb1, s.blocks[B]? = some (some cb) ∧
      s1.blocks = s.blocks.set B (some cb1) ∧ cb1.refCount = cb.refCount ∧
      cb1.valuePtr = cb.valuePtr)
    (ha : ∀ b, s1.aliasCount b = s.aliasCount b)
    (hr1 : ∀ (i : Nat) (h : SharedPtr), s1.handles[i]? = some (some h) →
      ∀ b, h.refCounter = some b → b < s.blocks.length)
    (hl : s1.loads = s.loads) : Counted s1 := by
  obtain ⟨hc1, hc2, hc3⟩ := hc
  rcases hb1 with hb1 | ⟨B, cb, cb1, hB, hb1, hcnt, hvp⟩
  · refine ⟨?_, by rw [hb1]; exact hr1, by rw [hl]; exact hc3⟩
    intro b cb' hb'
    rw [hb1] at hb'
    rw [ha b]
    exact hc1 b cb' hb'
  · refine ⟨?_, by rw [hb1, List.length_set]; exact hr1, by rw [hl]; exact hc3⟩
    intro b cb' hb'
    rw [hb1] at hb'
    rw [ha b]
    by_cases hbB : B = b
    · subst hbB
      rw [List.getElem?_set_self (lt_length_of_getElem_some hB)] at hb'
      cases hb'
      have := hc1 B cb hB
      rw [hvp, hcnt]
      exact this
    · rw [List.getElem?_set_ne hbB] at hb'
      exact hc1 b cb' hb'

/-- A new block with count 0 that no handle holds yet. -/
theorem counted_alloc {s s1 : State} (hc : Counted s) (cb0 : ControlBlock)
    (hb1 : s1.blocks = s.blocks ++ [some cb0]) (h0 : cb0.refCount = 0)
    (hh1 : s1.handles = s.handles) (hl : s1.loads = s.loads) : Counted s1 := by
  obtain ⟨hc1, hc2, hc3⟩ := hc
  have ha : ∀ b, s1.aliasCount b = s.aliasCount b := fun b => by
    simp only [State.aliasCount, hh1]
  refine ⟨?_, ?_, by rw [hl]; exact hc3⟩
  · intro b cb' hb'
    rw [hb1] at hb'
    rw [ha b]
    by_cases hlt : b < s.blocks.length
    · rw [List.getElem?_append_left hlt] at hb'
      exact hc1 b cb' hb'
    · have hge : s.blocks.length ≤ b := Nat.le_of_not_lt hlt
      rw [List.getElem?_append_right hge] at hb'
      have hm := List.getElem?_mem hb'
      simp only [List.mem_singleton] at hm
      cases hm
      rw [aliasCount_eq_zero_of_ge hc2 hge, h0]
      split_ifs <;> simp
  · intro i h hi b hb
    rw [hh1] at hi
    have := hc2 i h hi b hb
    rw [hb1, List.length_append]
    omega

/-- One more holder of the block `B`, which stores `nullptr` and whose count is the
number of its holders, without an increment. -/
theorem counted_hold {s s1 : State} (hc : Counted s) (B : Nat) (cb : ControlBlock)
    (hB : s.blocks[B]? = some (some cb)) (hvp : cb.valuePtr = 0)
    (hex : cb.refCount = s.aliasCount B)
    (hb1 : s1.blocks = s.blocks)
    (ha : ∀ b, b ≠ B → s1.aliasCount b = s.aliasCount b)
    (haB : s1.aliasCount B = s.aliasCount B + 1)
    (hr1 : ∀ (i : Nat) (h : SharedPtr), s1.handles[i]? = some (some h) →
      ∀ b, h.refCounter = some b → b < s.blocks.length)
    (hl : s1.loads = s.loads) : Counted s1 := by
  obtain ⟨hc1, hc2, hc3⟩ := hc
  refine ⟨?_, by rw [hb1]; exact hr1, by rw [hl]; exact hc3⟩
  intro b cb' hb'
  rw [hb1] at hb'
  by_cases hbB : B = b
  · subst hbB
    have := hc1 B cb hB
    rw [hB] at hb'
    cases hb'
    rw [haB]
    simp only [hvp, if_true] at this ⊢
    omega
  · have := hc1 b cb' hb'
    rw [ha b (Ne.symm hbB)]
    exact this


/-! ### Every operation keeps the counting invariant -/

theorem refs_mono {s : State} {n : Nat} (hc : Counted s) (hn : s.blocks.length ≤ n) :
    ∀ (i : Nat) (h : SharedPtr), s.handles[i]? = some (some h) →
      ∀ b, h.refCounter = some b → b < n :=
  fun i h hi b hb => Nat.lt_of_lt_of_le (hc.2.1 i h hi b hb) hn

theorem aliases_eq_true {b : Nat} {h : SharedPtr} (hr : h.refCounter = some b) :
    State.aliases b (some h) = true := by
  simp [State.aliases, hr]

theorem aliases_eq_false {b : Nat} {h : SharedPtr} (hr : h.refCounter ≠ some b) :
    State.aliases b (some h) = false := by
  simp [State.aliases, hr]

theorem defaultCtor_counted (s : State) (T : TypeId) (hc : Counted s) :
    Counted (defaultCtor s T) ∧ (defaultCtor s T).handles.length = s.handles.length + 1 := by
  have ha : Counted ⟨s.blocks ++ [some (ControlBlock.new 0)], s.handles, s.deleted, s.loads⟩ :=
    counted_alloc hc (ControlBlock.new 0) rfl rfl rfl rfl
  have hB : (s.blocks ++ [some (ControlBlock.new 0)])[s.blocks.length]? =
      some (some (ControlBlock.new 0)) := List.getElem?_concat_length _ _
  refine ⟨?_, by simp [defaultCtor, State.newControlBlock, State.pushHandle]⟩
  refine counted_hold ha s.blocks.length (ControlBlock.new 0) hB rfl ?_ rfl ?_ ?_ ?_ rfl
  · have := aliasCount_eq_zero_of_ge hc.2.1 (Nat.le_refl s.blocks.length)
    simp only [State.aliasCount] at this ⊢
    rw [this]
    rfl
  · intro b hb
    exact alias_push_same (t := defaultCtor s T) rfl (aliases_eq_false (by simpa using Ne.symm hb))
  · exact alias_push_gain (t := defaultCtor s T) rfl (aliases_eq_true rfl)
  · exact holdsOnly_push (refs_mono hc (by simp)) _ (by
      intro h hh b hb
      cases hh
      cases hb
      simp)

theorem set_concat_length {α : Type} (l : List α) (a b : α) :
    (l ++ [a]).set l.length b = l ++ [b] := by
  simp [List.set_append]

theorem rawCtor_counted (s : State) (T U : TypeId) (value : Ptr) (hc : Counted s) :
    ∀ s1, rawCtor s T U value = .ok s1 →
      Counted s1 ∧ s1.handles.length = s.handles.length + 1 := by
  intro s1 hs1
  rw [rawCtor_eq] at hs1
  cases hs1
  have ha : Counted ⟨s.blocks ++ [some (ControlBlock.new value)], s.handles, s.deleted,
      s.loads⟩ := counted_alloc hc (ControlBlock.new value) rfl rfl rfl rfl
  have hB : (s.blocks ++ [some (ControlBlock.new value)])[s.blocks.length]? =
      some (some (ControlBlock.new value)) := List.getElem?_concat_length _ _
  refine ⟨?_, by simp⟩
  refine counted_gain ha s.blocks.length (ControlBlock.new value) ⟨some U, 1, value⟩ hB
    (by simp [set_concat_length]) rfl rfl ?_ ?_ ?_ rfl
  · intro b hb
    exact alias_push_same rfl (aliases_eq_false (by simpa using Ne.symm hb))
  · exact alias_push_gain rfl (aliases_eq_true rfl)
  · exact holdsOnly_push (refs_mono hc (by simp)) _ (by
      intro h hh b hb
      cases hh
      cases hb
      simp)

theorem wrapInt_succ_of_counted {s : State} (hc : Counted s) {b : Nat} {cb : ControlBlock}
    (hb : s.blocks[b]? = some (some cb)) (hlen : s.handles.length < 2147483647) :
    wrapInt (cb.refCount + 1) = cb.refCount + 1 := by
  have := counted_refCount_le hc hb
  exact wrapInt_of_range (by omega) (by omega)

theorem wrapInt_pred_of_counted {s : State} (hc : Counted s) {b : Nat} {cb : ControlBlock}
    (hb : s.blocks[b]? = some (some cb)) (hlen : s.handles.length < 2147483647) :
    wrapInt (cb.refCount - 1) = cb.refCount - 1 := by
  have := counted_refCount_le hc hb
  exact wrapInt_of_range (by omega) (by omega)

theorem copyCtor_counted (s : State) (T : TypeId) (p : Nat) (hc : Counted s)
    (hlen : s.handles.length < 2147483647) :
    ∀ s1, copyCtor s T p = .ok s1 →
      Counted s1 ∧ s1.handles.length = s.handles.length + 1 := by
  rcases hlook : s.handles[p]? with _ | _ | h
  · simp [copyCtor, State.handle, hlook, bind, Except.bind]
  · simp [copyCtor, State.handle, hlook, bind, Except.bind]
  · have hrefs := holdsOnly_push (refs_mono hc (Nat.le_refl _)) (some ⟨T, h.valuePtr, h.refCounter⟩)
      (by intro h' hh'; cases hh'; exact hc.2.1 p h hlook)
    rcases hr : h.refCounter with _ | B
    · simp only [hr] at hrefs
      simp [copyCtor, State.handle, hlook, bind, Except.bind, hr, pure, Except.pure,
        State.pushHandle]
      exact counted_same hc (Or.inl rfl)
        (fun b => alias_push_same rfl (aliases_eq_false (by simp))) hrefs rfl
    · simp only [hr] at hrefs
      rcases hB : s.blocks[B]? with _ | _ | cb
      · simp [copyCtor, State.handle, hlook, bind, Except.bind, hr, pure, Except.pure,
          State.pushHandle, State.increment, State.setDestructor, State.block, hB]
      · simp [copyCtor, State.handle, hlook, bind, Except.bind, hr, pure, Except.pure,
          State.pushHandle, State.increment, State.setDestructor, State.block, hB]
      · have hincr := wrapInt_succ_of_counted hc hB hlen
        have hBlt := lt_length_of_getElem_some hB
        intro s1 hs1
        have hs1' : s1.blocks = s.blocks.set B (some ⟨(if h.T = T then cb.destructor else some h.T),
            cb.refCount + 1, cb.valuePtr⟩) ∧
            s1.handles = s.handles ++ [some ⟨T, h.valuePtr, some B⟩] ∧ s1.loads = s.loads := by
          by_cases hT : h.T = T
          · simp [-List.getElem?_eq_getElem, copyCtor, State.handle, hlook, bind, Except.bind, hr,
              pure, Except.pure, State.pushHandle, hT, State.increment, State.block, hB,
              ControlBlock.increment, hincr] at hs1
            subst hs1
            simp [hT]
          · simp [-List.getElem?_eq_getElem, copyCtor, State.handle, hlook, bind, Except.bind, hr,
              pure, Except.pure, State.pushHandle, hT, State.increment, State.setDestructor,
              State.block, hB, ControlBlock.increment, hincr, List.getElem?_set, hBlt] at hs1
            subst hs1
            simp [hT]
        obtain ⟨h1, h2, h3⟩ := hs1'
        refine ⟨counted_gain hc B cb _ hB h1 rfl rfl ?_ ?_ (by rw [h2]; exact hrefs) h3,
          by simp [h2]⟩
        · intro b hb
          exact alias_push_same h2 (aliases_eq_false (by simpa using Ne.symm hb))
        · exact alias_push_gain h2 (aliases_eq_true rfl)


/-- What `decrementAndCheck` does on a handle that holds a live block, in a state that
satisfies the counting invariant: it returns; block `A` is deleted or keeps a positive
count; no other block and no other handle changes; and the state in which handle `i`
has moreover let go of the block satisfies the invariant again. -/
theorem decrementAndCheck_counted (s : State) (i A : Nat) (h : SharedPtr) (cb : ControlBlock)
    (hc : Counted s) (hh : s.handles[i]? = some (some h)) (hr : h.refCounter = some A)
    (hA : s.blocks[A]? = some (some cb)) (hlen : s.handles.length < 2147483647) :
    ∃ s1 cell h1, decrementAndCheck s i = .ok s1 ∧ s1.blocks = s.blocks.set A cell ∧
      (∀ cb1, cell = some cb1 → cb1.refCount = cb.refCount - 1 ∧ 0 < cb1.refCount ∧
        cb1.valuePtr = cb.valuePtr) ∧
      s1.loads = s.loads ++ [cb.refCount - 1] ∧
      (∀ x, s1.handles.set i x = s.handles.set i x) ∧
      s1.handles.length = s.handles.length ∧
      (∀ j, j ≠ i → s1.handles[j]? = s.handles[j]?) ∧
      s1.handles[i]? = some (some h1) ∧ h1.T = h.T ∧
      (h1.refCounter = none ∨ h1.refCounter = some A) ∧
      (∀ hnew : SharedPtr, hnew.refCounter = none →
        Counted ⟨s1.blocks, s.handles.set i (some hnew), s1.deleted, s1.loads⟩) := by
  have hdc := decrementAndCheck_live s i A h cb hh hr hA
  have hdecr : cb.decrement.refCount = cb.refCount - 1 := wrapInt_pred_of_counted hc hA hlen
  have hilt := lt_length_of_getElem_some hh
  have hrefs : ∀ hnew : SharedPtr, hnew.refCounter = none →
      ∀ (j : Nat) (h' : SharedPtr), (s.handles.set i (some hnew))[j]? = some (some h') →
        ∀ b, h'.refCounter = some b → b < s.blocks.length := fun hnew hn =>
    holdsOnly_set hc.2.1 i (some hnew) (by
      intro h' hh' b hb
      cases hh'
      rw [hn] at hb
      cases hb)
  have halias : ∀ (bl : List (Option ControlBlock)) (dl : List (Ptr × TypeId)) (ld : List Int)
      (hnew : SharedPtr), hnew.refCounter = none →
      (∀ b, b ≠ A → State.aliasCount ⟨bl, s.handles.set i (some hnew), dl, ld⟩ b =
        s.aliasCount b) ∧
      State.aliasCount ⟨bl, s.handles.set i (some hnew), dl, ld⟩ A + 1 = s.aliasCount A :=
    fun bl dl ld hnew hn =>
      ⟨fun b hb => alias_set_same rfl hh (by
          rw [aliases_eq_false (by simp [hn]), aliases_eq_false (by simpa [hr] using Ne.symm hb)]),
        alias_set_lose rfl hh (aliases_eq_true hr) (aliases_eq_false (by simp [hn]))⟩
  by_cases hd : cb.decrement.refCount ≤ 0
  · simp only [hd, if_true] at hdc
    refine ⟨_, none, { h with refCounter := none }, hdc, rfl, (by intro cb1 h1; cases h1),
      (by simp [hdecr]), (by intro x; simp [List.set_set]), (by simp), ?_, ?_, rfl, Or.inl rfl,
      ?_⟩
    · intro j hj
      simp [List.getElem?_set_ne (Ne.symm hj)]
    · simp [List.getElem?_set_self hilt]
    · intro hnew hn
      exact counted_lose hc A cb none hA rfl (by intro cb1 h1; cases h1)
        (halias _ _ _ hnew hn).1 (halias _ _ _ hnew hn).2 (hrefs hnew hn) (by simp [hdecr])
  · simp only [hd, if_false] at hdc
    refine ⟨_, some cb.decrement, h, hdc, rfl, ?_, (by simp [hdecr]), (by intro x; rfl), rfl,
      (by intro j hj; rfl), hh, rfl, Or.inr hr, ?_⟩
    · intro cb1 h1
      cases h1
      exact ⟨hdecr, by omega, rfl⟩
    · intro hnew hn
      refine counted_lose hc A cb (some cb.decrement) hA rfl ?_
        (halias _ _ _ hnew hn).1 (halias _ _ _ hnew hn).2 (hrefs hnew hn) (by simp [hdecr])
      intro cb1 h1
      cases h1
      exact ⟨hdecr, by omega, rfl⟩


theorem decrementAndCheck_null (s : State) (i : Nat) (h : SharedPtr)
    (hh : s.handles[i]? = some (some h)) (hr : h.refCounter = none) :
    decrementAndCheck s i = .error .nullDeref := by
  simp [decrementAndCheck, State.handle, hh, hr, State.decrement, State.block, bind, Except.bind]

theorem decrementAndCheck_dangling (s : State) (i A : Nat) (h : SharedPtr)
    (hh : s.handles[i]? = some (some h)) (hr : h.refCounter = some A)
    (hA : ∀ cb, s.blocks[A]? ≠ some (some cb)) :
    decrementAndCheck s i = .error .useAfterFree := by
  rcases hB : s.blocks[A]? with _ | _ | cb
  · simp [decrementAndCheck, State.handle, hh, hr, State.decrement, State.block, bind,
      Except.bind, hB]
  · simp [decrementAndCheck, State.handle, hh, hr, State.decrement, State.block, bind,
      Except.bind, hB]
  · exact absurd hB (hA cb)

theorem reset_counted (s : State) (i : Nat) (hc : Counted s)
    (hlen : s.handles.length < 2147483647) :
    ∀ s1, reset s i = .ok s1 → Counted s1 ∧ s1.handles.length = s.handles.length ∧
      ∃ h1, s1.handles[i]? = some (some h1) ∧ h1.refCounter = none := by
  rcases hlook : s.handles[i]? with _ | _ | h
  · simp [reset, State.handle, hlook, bind, Except.bind]
  · simp [reset, State.handle, hlook, bind, Except.bind]
  · have hilt := lt_length_of_getElem_some hlook
    rcases hr : h.refCounter with _ | A
    · simp [-List.getElem?_eq_getElem, reset, State.handle, hlook, bind, Except.bind, hr, pure,
        Except.pure, State.setHandle, List.getElem?_set, hilt]
      refine counted_same hc (Or.inl rfl) (fun b => alias_set_same rfl hlook ?_) ?_ rfl
      · rw [aliases_eq_false (by simp), aliases_eq_false (by simp [hr])]
      · exact holdsOnly_set hc.2.1 i _ (by
          intro h' hh' b hb
          cases hh'
          cases hb)
    · by_cases hA : ∃ cb, s.blocks[A]? = some (some cb)
      · obtain ⟨cb, hA⟩ := hA
        obtain ⟨s1, cell, h1, hdc, _, _, _, hset, hl1, _, _, _, _, hcnt⟩ :=
          decrementAndCheck_counted s i A h cb hc hlook hr hA hlen
        simp [-List.getElem?_eq_getElem, reset, State.handle, hlook, bind, Except.bind, hr, pure,
          Except.pure, State.setHandle, List.getElem?_set, hdc, hl1, hilt, hset]
        exact hcnt ⟨h.T, 0, none⟩ rfl
      · have hdc := decrementAndCheck_dangling s i A h hlook hr
          (fun cb hcb => hA ⟨cb, hcb⟩)
        simp [reset, State.handle, hlook, bind, Except.bind, hr, hdc]

theorem destroy_counted (s : State) (i : Nat) (hc : Counted s)
    (hlen : s.handles.length < 2147483647) :
    ∀ s1, destroy s i = .ok s1 → Counted s1 ∧ s1.handles.length = s.handles.length := by
  intro s2 hs2
  rcases hres : reset s i with e | s1
  · simp [destroy, hres, bind, Except.bind] at hs2
  · obtain ⟨hc1, hl, h1, hh1, hr1⟩ := reset_counted s i hc hlen s1 hres
    simp [destroy, hres, bind, Except.bind, pure, Except.pure] at hs2
    subst hs2
    refine ⟨counted_same hc1 (Or.inl rfl) (fun b => alias_set_same rfl hh1 ?_) ?_ rfl,
      by simp [hl]⟩
    · rw [aliases_none, aliases_eq_false (by simp [hr1])]
    · exact holdsOnly_set hc1.2.1 i none (by intro h' hh'; cases hh')


theorem alias_move {s s1 : State} {p : Nat} {hp new null : SharedPtr}
    (h1 : s1.handles = (s.handles ++ [some new]).set p (some null))
    (hlook : s.handles[p]? = some (some hp)) (hnew : new.refCounter = hp.refCounter)
    (hnull : null.refCounter = none) : ∀ b, s1.aliasCount b = s.aliasCount b := by
  intro b
  have hmid : (⟨s.blocks, s.handles ++ [some new], s.deleted, s.loads⟩ : State).handles[p]? =
      some (some hp) := by
    show (s.handles ++ [some new])[p]? = some (some hp)
    rw [List.getElem?_append_left (lt_length_of_getElem_some hlook)]
    exact hlook
  by_cases hb : hp.refCounter = some b
  · have e1 := alias_push_gain (s := s)
      (t := ⟨s.blocks, s.handles ++ [some new], s.deleted, s.loads⟩) (n := some new) (b := b)
      rfl (aliases_eq_true (by rw [hnew]; exact hb))
    have e2 := alias_set_lose (t := s1) (b := b) h1 hmid (aliases_eq_true hb)
      (aliases_eq_false (by simp [hnull]))
    omega
  · have e1 := alias_push_same (s := s)
      (t := ⟨s.blocks, s.handles ++ [some new], s.deleted, s.loads⟩) (n := some new) (b := b)
      rfl (aliases_eq_false (by rw [hnew]; exact hb))
    have e2 := alias_set_same (t := s1) (b := b) h1 hmid
      (by rw [aliases_eq_false hb, aliases_eq_false (by simp [hnull])])
    omega

theorem alias_transfer {s s1 : State} {i p : Nat} {hi hp new null : SharedPtr}
    (h1 : s1.handles = (s.handles.set i (some new)).set p (some null))
    (hip : i ≠ p) (hilook : s.handles[i]? = some (some hi)) (hinone : hi.refCounter = none)
    (hlook : s.handles[p]? = some (some hp)) (hnew : new.refCounter = hp.refCounter)
    (hnull : null.refCounter = none) : ∀ b, s1.aliasCount b = s.aliasCount b := by
  intro b
  have hmid : (⟨s.blocks, s.handles.set i (some new), s.deleted, s.loads⟩ : State).handles[p]? =
      some (some hp) := by
    show (s.handles.set i (some new))[p]? = some (some hp)
    rw [List.getElem?_set_ne hip]
    exact hlook
  by_cases hb : hp.refCounter = some b
  · have e1 := alias_set_gain (s := s)
      (t := ⟨s.blocks, s.handles.set i (some new), s.deleted, s.loads⟩) (b := b)
      rfl hilook (aliases_eq_false (by simp [hinone])) (aliases_eq_true (by rw [hnew]; exact hb))
    have e2 := alias_set_lose (t := s1) (b := b) h1 hmid (aliases_eq_true hb)
      (aliases_eq_false (by simp [hnull]))
    omega
  · have e1 := alias_set_same (s := s)
      (t := ⟨s.blocks, s.handles.set i (some new), s.deleted, s.loads⟩) (b := b)
      rfl hilook (by rw [aliases_eq_false (by rw [hnew]; exact hb),
        aliases_eq_false (by simp [hinone])])
    have e2 := alias_set_same (t := s1) (b := b) h1 hmid
      (by rw [aliases_eq_false hb, aliases_eq_false (by simp [hnull])])
    omega

theorem moveCtor_counted (s : State) (T : TypeId) (p : Nat) (hc : Counted s) :
    ∀ s1, moveCtor s T p = .ok s1 →
      Counted s1 ∧ s1.handles.length = s.handles.length + 1 := by
  rcases hlook : s.handles[p]? with _ | _ | h
  · simp [moveCtor, State.handle, hlook, bind, Except.bind]
  · simp [moveCtor, State.handle, hlook, bind, Except.bind]
  · intro s1 hs1
    have hplt := lt_length_of_getElem_some hlook
    have hkey : s1.handles = (s.handles ++ [some (SharedPtr.mk T h.valuePtr h.refCounter)]).set p
          (some (SharedPtr.mk h.T 0 none)) ∧ s1.loads = s.loads ∧
        (s1.blocks = s.blocks ∨ ∃ B cb cb1, s.blocks[B]? = some (some cb) ∧
          s1.blocks = s.blocks.set B (some cb1) ∧ cb1.refCount = cb.refCount ∧
          cb1.valuePtr = cb.valuePtr) := by
      by_cases hcond : h.T ≠ T ∧ h.refCounter ≠ none
      · obtain ⟨B, hB⟩ := Option.ne_none_iff_exists'.mp hcond.2
        rcases hcb : s.blocks[B]? with _ | _ | cb
        · simp [moveCtor, State.handle, hlook, bind, Except.bind, hcond, hB, State.pushHandle,
            State.setDestructor, State.block, hcb] at hs1
        · simp [moveCtor, State.handle, hlook, bind, Except.bind, hcond, hB, State.pushHandle,
            State.setDestructor, State.block, hcb] at hs1
        · simp [-List.getElem?_eq_getElem, moveCtor, State.handle, hlook, bind, Except.bind,
            hcond, hB, State.pushHandle, State.setDestructor, State.block, hcb, pure,
            Except.pure, State.setHandle] at hs1
          subst hs1
          exact ⟨by simp [hB], rfl, Or.inr ⟨B, cb, _, hcb, rfl, rfl, rfl⟩⟩
      · simp [-List.getElem?_eq_getElem, moveCtor, State.handle, hlook, bind, Except.bind,
          hcond, State.pushHandle, pure, Except.pure, State.setHandle] at hs1
        subst hs1
        exact ⟨rfl, rfl, Or.inl rfl⟩
    obtain ⟨h1, h2, h3⟩ := hkey
    refine ⟨counted_same hc h3 (alias_move h1 hlook rfl rfl) ?_ h2, by simp [h1]⟩
    rw [h1]
    exact holdsOnly_set (holdsOnly_push hc.2.1 _ (by
      intro h' hh'
      cases hh'
      exact hc.2.1 p h hlook)) p _ (by
      intro h' hh' b hb
      cases hh'
      cases hb)


/-- Handle `i` of the state `s1` reached by the release step takes over the address and
the block pointer `r`, and the count of the block `r` points to goes up by one. -/
theorem adopt_counted {s s1 s2 : State} (i : Nat) (T : TypeId) (v : Ptr) (r : Option Nat)
    (hilt : i < s.handles.length)
    (hset : ∀ x, s1.handles.set i x = s.handles.set i x)
    (hmid : ∀ hnew : SharedPtr, hnew.refCounter = none →
      Counted ⟨s1.blocks, s.handles.set i (some hnew), s1.deleted, s1.loads⟩)
    (hlen : s.handles.length < 2147483647)
    (hh2 : s2.handles = s1.handles.set i (some ⟨T, v, r⟩)) (hl2 : s2.loads = s1.loads)
    (hb2 : (r = none ∧ s2.blocks = s1.blocks) ∨
      ∃ B cb d, r = some B ∧ s1.blocks[B]? = some (some cb) ∧
        s2.blocks = s1.blocks.set B (some ⟨d, wrapInt (cb.refCount + 1), cb.valuePtr⟩)) :
    Counted s2 := by
  have hm := hmid ⟨T, v, none⟩ rfl
  have hlook : (⟨s1.blocks, s.handles.set i (some ⟨T, v, none⟩), s1.deleted, s1.loads⟩ :
      State).handles[i]? = some (some ⟨T, v, none⟩) := List.getElem?_set_self hilt
  have hh2' : s2.handles = (⟨s1.blocks, s.handles.set i (some ⟨T, v, none⟩), s1.deleted,
      s1.loads⟩ : State).handles.set i (some ⟨T, v, r⟩) := by
    rw [hh2, hset]
    simp [List.set_set]
  rcases hb2 with ⟨hr, hb2⟩ | ⟨B, cb, d, hr, hB, hb2⟩
  · subst hr
    refine counted_same hm (Or.inl hb2) (fun b => alias_set_same hh2' hlook rfl) ?_ hl2
    rw [hh2, hset]
    exact hm.2.1
  · subst hr
    have hincr : wrapInt (cb.refCount + 1) = cb.refCount + 1 :=
      wrapInt_succ_of_counted hm hB (by simpa using hlen)
    refine counted_gain hm B cb _ hB hb2 hincr rfl ?_ ?_ ?_ hl2
    · intro b hb
      exact alias_set_same hh2' hlook (by
        rw [aliases_eq_false (by simpa using Ne.symm hb), aliases_eq_false (by simp)])
    · exact alias_set_gain hh2' hlook (aliases_eq_false (by simp)) (aliases_eq_true rfl)
    · rw [hh2']
      exact holdsOnly_set hm.2.1 i _ (by
        intro h' hh' b hb
        cases hh'
        cases hb
        have := lt_length_of_getElem_some hB
        simpa using this)

theorem copyAssign_counted (s : State) (this p : Nat) (hc : Counted s)
    (hlen : s.handles.length < 2147483647) :
    ∀ s1, copyAssign s this p = .ok s1 →
      Counted s1 ∧ s1.handles.length = s.handles.length := by
  rcases hlook : s.handles[this]? with _ | _ | h
  · simp [copyAssign, State.handle, hlook, bind, Except.bind]
  · simp [copyAssign, State.handle, hlook, bind, Except.bind]
  rcases hlookp : s.handles[p]? with _ | _ | hp
  · simp [copyAssign, State.handle, hlook, hlookp, bind, Except.bind]
  · simp [copyAssign, State.handle, hlook, hlookp, bind, Except.bind]
  have hilt := lt_length_of_getElem_some hlook
  by_cases hself : this = p
  · subst hself
    rw [hlook] at hlookp
    cases hlookp
    simp [copyAssign, State.handle, hlook, bind, Except.bind, pure, Except.pure]
    exact hc
  · rcases hr : h.refCounter with _ | A
    · have hdc := decrementAndCheck_null s this h hlook hr
      simp [copyAssign, State.handle, hlook, hlookp, bind, Except.bind, hself, hdc]
    · by_cases hA : ∃ cb, s.blocks[A]? = some (some cb)
      · obtain ⟨cb, hA⟩ := hA
        obtain ⟨s1, cell, h1, hdc, _, _, _, hset, hl1, hoth, _, _, _, hmid⟩ :=
          decrementAndCheck_counted s this A h cb hc hlook hr hA hlen
        have hp1 : s1.handles[p]? = some (some hp) := by
          rw [hoth p (Ne.symm hself)]
          exact hlookp
        intro s2 hs2
        have hkey : s2.handles = s1.handles.set this (some ⟨h.T, hp.valuePtr, hp.refCounter⟩) ∧
            s2.loads = s1.loads ∧
            ((hp.refCounter = none ∧ s2.blocks = s1.blocks) ∨
              ∃ B cb d, hp.refCounter = some B ∧ s1.blocks[B]? = some (some cb) ∧
                s2.blocks = s1.blocks.set B
                  (some ⟨d, wrapInt (cb.refCount + 1), cb.valuePtr⟩)) := by
          rcases hrp : hp.refCounter with _ | B
          · simp [copyAssign, State.handle, hlook, hlookp, bind, Except.bind, hself, hdc, hp1,
              hrp, pure, Except.pure, State.setHandle] at hs2
            subst hs2
            simp
          · rcases hcbB : s1.blocks[B]? with _ | _ | cbB
            · simp [copyAssign, State.handle, hlook, hlookp, bind, Except.bind, hself, hdc, hp1,
                hrp, pure, Except.pure, State.setHandle, State.increment, State.block,
                hcbB] at hs2
            · simp [copyAssign, State.handle, hlook, hlookp, bind, Except.bind, hself, hdc, hp1,
                hrp, pure, Except.pure, State.setHandle, State.increment, State.block,
                hcbB] at hs2
            · have hBlt := lt_length_of_getElem_some hcbB
              by_cases hT : hp.T = h.T
              · simp [-List.getElem?_eq_getElem, copyAssign, State.handle, hlook, hlookp, bind,
                  Except.bind, hself, hdc, hp1, hrp, pure, Except.pure, State.setHandle,
                  State.increment, State.block, hcbB, hT, ControlBlock.increment] at hs2
                subst hs2
                exact ⟨rfl, rfl, Or.inr ⟨B, cbB, _, rfl, hcbB, rfl⟩⟩
              · simp [-List.getElem?_eq_getElem, copyAssign, State.handle, hlook, hlookp, bind,
                  Except.bind, hself, hdc, hp1, hrp, pure, Except.pure, State.setHandle,
                  State.increment, State.block, hcbB, hT, ControlBlock.increment,
                  State.setDestructor, List.getElem?_set, hBlt] at hs2
                subst hs2
                exact ⟨rfl, rfl, Or.inr ⟨B, cbB, _, rfl, hcbB, rfl⟩⟩
        obtain ⟨k1, k2, k3⟩ := hkey
        exact ⟨adopt_counted this h.T hp.valuePtr hp.refCounter hilt hset hmid hlen k1 k2 k3,
          by rw [k1, List.length_set, hl1]⟩
      · have hdc := decrementAndCheck_dangling s this A h hlook hr
          (fun cb hcb => hA ⟨cb, hcb⟩)
        simp [copyAssign, State.handle, hlook, hlookp, bind, Except.bind, hself, hdc]


theorem moveAssign_counted (s : State) (this p : Nat) (hc : Counted s)
    (hlen : s.handles.length < 2147483647) :
    ∀ s1, moveAssign s this p = .ok s1 →
      Counted s1 ∧ s1.handles.length = s.handles.length := by
  rcases hlook : s.handles[this]? with _ | _ | h
  · simp [moveAssign, State.handle, hlook, bind, Except.bind]
  · simp [moveAssign, State.handle, hlook, bind, Except.bind]
  have hilt := lt_length_of_getElem_some hlook
  rcases hr : h.refCounter with _ | A
  · have hdc := decrementAndCheck_null s this h hlook hr
    simp [moveAssign, State.handle, hlook, bind, Except.bind, hdc]
  by_cases hA : ∃ cb, s.blocks[A]? = some (some cb)
  · obtain ⟨cb, hA⟩ := hA
    obtain ⟨s1, cell, h1, hdc, _, _, _, hset, hl1, hoth, hh1, hT1, _, hmid⟩ :=
      decrementAndCheck_counted s this A h cb hc hlook hr hA hlen
    by_cases hself : this = p
    · subst hself
      intro s2 hs2
      simp [-List.getElem?_eq_getElem, moveAssign, State.handle, hlook, bind, Except.bind, hdc,
        hh1, hT1, pure, Except.pure, State.setHandle, List.set_set, hset] at hs2
      subst hs2
      exact ⟨hmid ⟨h.T, 0, none⟩ rfl, by simp⟩
    · rcases hlookp : s.handles[p]? with _ | _ | hp
      · have hp1 : s1.handles[p]? = none := by rw [hoth p (Ne.symm hself)]; exact hlookp
        simp [moveAssign, State.handle, hlook, bind, Except.bind, hdc, hp1]
      · have hp1 : s1.handles[p]? = some none := by rw [hoth p (Ne.symm hself)]; exact hlookp
        simp [moveAssign, State.handle, hlook, bind, Except.bind, hdc, hp1]
      · have hp1 : s1.handles[p]? = some (some hp) := by
          rw [hoth p (Ne.symm hself)]
          exact hlookp
        intro s2 hs2
        have hm := hmid ⟨h.T, hp.valuePtr, none⟩ rfl
        have hkey : s2.handles = (s1.handles.set this
              (some (SharedPtr.mk h.T hp.valuePtr hp.refCounter))).set p
              (some (SharedPtr.mk hp.T 0 none)) ∧
            s2.loads = s1.loads ∧
            (s2.blocks = s1.blocks ∨ ∃ B cb cb1, s1.blocks[B]? = some (some cb) ∧
              s2.blocks = s1.blocks.set B (some cb1) ∧ cb1.refCount = cb.refCount ∧
              cb1.valuePtr = cb.valuePtr) := by
          by_cases hcond : hp.T ≠ h.T ∧ hp.refCounter ≠ none
          · obtain ⟨B, hB⟩ := Option.ne_none_iff_exists'.mp hcond.2
            rcases hcb : s1.blocks[B]? with _ | _ | cbB
            · simp [moveAssign, State.handle, hlook, bind, Except.bind, hdc, hp1, hcond, hB,
                State.setHandle, State.setDestructor, State.block, hcb] at hs2
            · simp [moveAssign, State.handle, hlook, bind, Except.bind, hdc, hp1, hcond, hB,
                State.setHandle, State.setDestructor, State.block, hcb] at hs2
            · simp [-List.getElem?_eq_getElem, moveAssign, State.handle, hlook, bind,
                Except.bind, hdc, hp1, hcond, hB, State.setHandle, State.setDestructor,
                State.block, hcb, pure, Except.pure] at hs2
              subst hs2
              exact ⟨by simp [hB], rfl, Or.inr ⟨B, cbB, _, hcb, rfl, rfl, rfl⟩⟩
          · simp [-List.getElem?_eq_getElem, moveAssign, State.handle, hlook, bind,
              Except.bind, hdc, hp1, hcond, State.setHandle, pure, Except.pure] at hs2
            subst hs2
            exact ⟨rfl, rfl, Or.inl rfl⟩
        obtain ⟨k1, k2, k3⟩ := hkey
        have k1' : s2.handles = ((⟨s1.blocks, s.handles.set this (some ⟨h.T, hp.valuePtr, none⟩),
            s1.deleted, s1.loads⟩ : State).handles.set this
              (some (SharedPtr.mk h.T hp.valuePtr hp.refCounter))).set p
              (some (SharedPtr.mk hp.T 0 none)) := by
          rw [k1, hset]
          simp [List.set_set]
        have hmp : (⟨s1.blocks, s.handles.set this (some ⟨h.T, hp.valuePtr, none⟩),
            s1.deleted, s1.loads⟩ : State).handles[p]? = some (some hp) := by
          show (s.handles.set this _)[p]? = _
          rw [List.getElem?_set_ne hself]
          exact hlookp
        have hmi : (⟨s1.blocks, s.handles.set this (some ⟨h.T, hp.valuePtr, none⟩),
            s1.deleted, s1.loads⟩ : State).handles[this]? =
            some (some ⟨h.T, hp.valuePtr, none⟩) := List.getElem?_set_self hilt
        refine ⟨counted_same hm k3 (alias_transfer k1' hself hmi rfl hmp rfl rfl) ?_ k2,
          by rw [k1, List.length_set, List.length_set, hl1]⟩
        rw [k1']
        exact holdsOnly_set (holdsOnly_set hm.2.1 this _ (by
          intro h' hh'
          cases hh'
          exact hm.2.1 p hp hmp)) p _ (by
          intro h' hh' b hb
          cases hh'
          cases hb)
  · have hdc := decrementAndCheck_dangling s this A h hlook hr (fun cb hcb => hA ⟨cb, hcb⟩)
    simp [moveAssign, State.handle, hlook, bind, Except.bind, hdc]


/-- Handle `i`, which holds no block, is bound to a newly allocated block: with count 1
for an object address, with count 0 for `nullptr`. -/
theorem rebind_counted {m s2 : State} (hm : Counted m) (i : Nat) (hi : SharedPtr) (T : TypeId)
    (p : Ptr) (cbnew : ControlBlock)
    (hlook : m.handles[i]? = some (some hi)) (hnone : hi.refCounter = none)
    (hb2 : s2.blocks = m.blocks ++ [some cbnew])
    (hh2 : s2.handles = m.handles.set i (some ⟨T, p, some m.blocks.length⟩))
    (hl2 : s2.loads = m.loads)
    (hnew : (p ≠ 0 ∧ cbnew.refCount = 1 ∧ cbnew.valuePtr = p) ∨
      (cbnew.refCount = 0 ∧ cbnew.valuePtr = 0)) : Counted s2 := by
  have hrefs : ∀ (j : Nat) (h : SharedPtr), s2.handles[j]? = some (some h) →
      ∀ b, h.refCounter = some b → b < (m.blocks ++ [some cbnew]).length := by
    rw [hh2]
    exact holdsOnly_set (refs_mono hm (by simp)) i _ (by
      intro h' hh' b hb
      cases hh'
      cases hb
      simp)
  have hother : ∀ b, b ≠ m.blocks.length → s2.aliasCount b = m.aliasCount b := fun b hb =>
    alias_set_same hh2 hlook (by
      rw [aliases_eq_false (by simpa using Ne.symm hb), aliases_eq_false (by simp [hnone])])
  have hgain : s2.aliasCount m.blocks.length = m.aliasCount m.blocks.length + 1 :=
    alias_set_gain hh2 hlook (aliases_eq_false (by simp [hnone])) (aliases_eq_true rfl)
  have hzero := aliasCount_eq_zero_of_ge hm.2.1 (Nat.le_refl m.blocks.length)
  rcases hnew with ⟨hp, hcnt, hvp⟩ | ⟨hcnt, hvp⟩
  · have ha : Counted ⟨m.blocks ++ [some ⟨cbnew.destructor, 0, cbnew.valuePtr⟩], m.handles,
        m.deleted, m.loads⟩ := counted_alloc hm _ rfl rfl rfl rfl
    refine counted_gain ha m.blocks.length ⟨cbnew.destructor, 0, cbnew.valuePtr⟩ cbnew
      (List.getElem?_concat_length _ _) ?_ (by simp [hcnt]) rfl hother hgain
      (by simpa using hrefs) hl2
    rw [hb2]
    simp [set_concat_length]
  · have ha : Counted ⟨m.blocks ++ [some cbnew], m.handles, m.deleted, m.loads⟩ :=
      counted_alloc hm _ rfl hcnt rfl rfl
    refine counted_hold ha m.blocks.length cbnew (List.getElem?_concat_length _ _) hvp ?_ hb2
      hother hgain (by simpa using hrefs) hl2
    rw [hcnt]
    simp only [State.aliasCount] at hzero ⊢
    rw [hzero]
    rfl

theorem resetPtr_counted (s : State) (this : Nat) (U : TypeId) (p : Ptr) (hc : Counted s)
    (hlen : s.handles.length < 2147483647) :
    ∀ s1, resetPtr s this U p = .ok s1 →
      Counted s1 ∧ s1.handles.length = s.handles.length := by
  rcases hlook : s.handles[this]? with _ | _ | h
  · simp [resetPtr, State.handle, hlook, bind, Except.bind]
  · simp [resetPtr, State.handle, hlook, bind, Except.bind]
  have hilt := lt_length_of_getElem_some hlook
  have hwrap : wrapInt 1 = 1 := by decide
  rcases hr : h.refCounter with _ | A
  · intro s2 hs2
    have hkey : ∃ cbnew, s2.blocks = s.blocks ++ [some cbnew] ∧
        s2.handles = s.handles.set this (some ⟨h.T, p, some s.blocks.length⟩) ∧
        s2.loads = s.loads ∧
        ((p ≠ 0 ∧ cbnew.refCount = 1 ∧ cbnew.valuePtr = p) ∨
          (cbnew.refCount = 0 ∧ cbnew.valuePtr = 0)) := by
      by_cases hp : p = 0
      · simp [resetPtr, State.handle, hlook, bind, Except.bind, hr, pure, Except.pure,
          State.newControlBlock, State.setHandle, hp] at hs2
        subst hs2
        exact ⟨ControlBlock.new 0, by simp [hp], by simp [hp], rfl, Or.inr ⟨rfl, rfl⟩⟩
      · simp [resetPtr, State.handle, hlook, bind, Except.bind, hr, pure, Except.pure,
          State.newControlBlock, State.setHandle, hp, State.increment, State.setDestructor,
          State.block, ControlBlock.increment, ControlBlock.new, hwrap] at hs2
        subst hs2
        exact ⟨⟨some U, 1, p⟩, by simp, by simp, rfl, Or.inl ⟨hp, rfl, rfl⟩⟩
    obtain ⟨cbnew, k1, k2, k3, k4⟩ := hkey
    exact ⟨rebind_counted hc this h h.T p cbnew hlook hr k1 k2 k3 k4, by simp [k2]⟩
  · by_cases hA : ∃ cb, s.blocks[A]? = some (some cb)
    · obtain ⟨cb, hA⟩ := hA
      obtain ⟨s1, cell, h1, hdc, hb1, _, _, hset, hl1, _, _, _, _, hmid⟩ :=
        decrementAndCheck_counted s this A h cb hc hlook hr hA hlen
      intro s2 hs2
      have hm := hmid ⟨h.T, p, none⟩ rfl
      have hkey : ∃ cbnew, s2.blocks = s1.blocks ++ [some cbnew] ∧
          s2.handles = s1.handles.set this (some ⟨h.T, p, some s1.blocks.length⟩) ∧
          s2.loads = s1.loads ∧
          ((p ≠ 0 ∧ cbnew.refCount = 1 ∧ cbnew.valuePtr = p) ∨
            (cbnew.refCount = 0 ∧ cbnew.valuePtr = 0)) := by
        by_cases hp : p = 0
        · simp [resetPtr, State.handle, hlook, bind, Except.bind, hr, pure, Except.pure,
            State.newControlBlock, State.setHandle, hp, hdc] at hs2
          subst hs2
          exact ⟨ControlBlock.new 0, by simp [hp], by simp [hp], rfl, Or.inr ⟨rfl, rfl⟩⟩
        · simp [resetPtr, State.handle, hlook, bind, Except.bind, hr, pure, Except.pure,
            State.newControlBlock, State.setHandle, hp, State.increment, State.setDestructor,
            State.block, ControlBlock.increment, ControlBlock.new, hwrap, hdc] at hs2
          subst hs2
          exact ⟨⟨some U, 1, p⟩, by simp, by simp, rfl, Or.inl ⟨hp, rfl, rfl⟩⟩
      obtain ⟨cbnew, k1, k2, k3, k4⟩ := hkey
      refine ⟨rebind_counted hm this ⟨h.T, p, none⟩ h.T p cbnew (List.getElem?_set_self hilt) rfl
        k1 ?_ k3 k4, by rw [k2, List.length_set, hl1]⟩
      rw [k2, hset]
      simp [List.set_set]
    · have hdc := decrementAndCheck_dangling s this A h hlook hr (fun cb hcb => hA ⟨cb, hcb⟩)
      simp [resetPtr, State.handle, hlook, bind, Except.bind, hr, hdc]

/-- Both casts: a block is allocated for the local handle and left behind, the count of
the argument's block is incremented and the new handle holds that block. -/
theorem cast_counted (s : State) (T : TypeId) (v : Ptr) (hc : Counted s)
    (hlen : s.handles.length < 2147483647) (h : SharedPtr) :
    ∀ s2, (State.increment ⟨s.blocks ++ [some (ControlBlock.new 0)], s.handles, s.deleted,
        s.loads⟩ h.refCounter).bind (fun s1 => .ok (s1.pushHandle ⟨T, v, h.refCounter⟩)) =
        .ok s2 →
      Counted s2 ∧ s2.handles.length = s.handles.length + 1 := by
  have ha : Counted ⟨s.blocks ++ [some (ControlBlock.new 0)], s.handles, s.deleted, s.loads⟩ :=
    counted_alloc hc (ControlBlock.new 0) rfl rfl rfl rfl
  rcases hr : h.refCounter with _ | B
  · simp [State.increment, State.block, Except.bind]
  · rcases hB : (s.blocks ++ [some (ControlBlock.new 0)])[B]? with _ | _ | cb
    · simp [State.increment, State.block, Except.bind, hB]
    · simp [State.increment, State.block, Except.bind, hB]
    · have hincr := wrapInt_succ_of_counted ha hB (by simpa using hlen)
      intro s2 hs2
      simp [-List.getElem?_eq_getElem, State.increment, State.block, Except.bind, hB,
        State.pushHandle, ControlBlock.increment, hincr] at hs2
      subst hs2
      refine ⟨counted_gain ha B cb _ hB rfl rfl rfl ?_ ?_ ?_ rfl, by simp⟩
      · intro b hb
        exact alias_push_same rfl (aliases_eq_false (by simpa using Ne.symm hb))
      · exact alias_push_gain rfl (aliases_eq_true rfl)
      · exact holdsOnly_push ha.2.1 _ (by
          intro h' hh' b hb
          cases hh'
          cases hb
          exact lt_length_of_getElem_some hB)

theorem static_pointer_cast_counted (s : State) (T : TypeId) (sp : Nat) (hc : Counted s)
    (hlen : s.handles.length < 2147483647) :
    ∀ s1, static_pointer_cast s T sp = .ok s1 →
      Counted s1 ∧ s1.handles.length = s.handles.length + 1 := by
  rcases hlook : s.handles[sp]? with _ | _ | h
  · simp [static_pointer_cast, State.handle, hlook, bind, Except.bind]
  · simp [static_pointer_cast, State.handle, hlook, bind, Except.bind]
  · have := cast_counted s T h.get hc hlen h
    simpa [static_pointer_cast, State.handle, hlook, bind, State.newControlBlock, pure,
      Except.pure] using this

theorem dynamic_pointer_cast_counted (s : State) (T : TypeId) (sp : Nat) (castOk : Bool)
    (hc : Counted s) (hlen : s.handles.length < 2147483647) :
    ∀ s1, dynamic_pointer_cast s T sp castOk = .ok s1 →
      Counted s1 ∧ s1.handles.length = s.handles.length + 1 := by
  rcases hlook : s.handles[sp]? with _ | _ | h
  · simp [dynamic_pointer_cast, State.handle, hlook, bind, Except.bind]
  · simp [dynamic_pointer_cast, State.handle, hlook, bind, Except.bind]
  · have := cast_counted s T (if castOk then h.get else 0) hc hlen h
    simpa [dynamic_pointer_cast, State.handle, hlook, bind, State.newControlBlock, pure,
      Except.pure] using this


theorem step_counted (s : State) (op : Op) (hc : Counted s)
    (hlen : s.handles.length < 2147483647) :
    ∀ s1, step s op = .ok s1 → Counted s1 ∧ s1.handles.length ≤ s.handles.length + 1 := by
  intro s1 hs1
  cases op with
  | defaultCtor T =>
    simp only [step, Except.ok.injEq] at hs1
    subst hs1
    exact ⟨(defaultCtor_counted s T hc).1, Nat.le_of_eq (defaultCtor_counted s T hc).2⟩
  | rawCtor T U value =>
    have := rawCtor_counted s T U value hc s1 hs1
    exact ⟨this.1, Nat.le_of_eq this.2⟩
  | copyCtor T p =>
    have := copyCtor_counted s T p hc hlen s1 hs1
    exact ⟨this.1, Nat.le_of_eq this.2⟩
  | moveCtor T p =>
    have := moveCtor_counted s T p hc s1 hs1
    exact ⟨this.1, Nat.le_of_eq this.2⟩
  | copyAssign this p =>
    have h := copyAssign_counted s this p hc hlen s1 hs1
    exact ⟨h.1, by rw [h.2]; omega⟩
  | moveAssign this p =>
    have h := moveAssign_counted s this p hc hlen s1 hs1
    exact ⟨h.1, by rw [h.2]; omega⟩
  | reset this =>
    have h := reset_counted s this hc hlen s1 hs1
    exact ⟨h.1, by rw [h.2.1]; omega⟩
  | resetPtr this U p =>
    have h := resetPtr_counted s this U p hc hlen s1 hs1
    exact ⟨h.1, by rw [h.2]; omega⟩
  | destroy this =>
    have h := destroy_counted s this hc hlen s1 hs1
    exact ⟨h.1, by rw [h.2]; omega⟩
  | staticCast T sp =>
    have := static_pointer_cast_counted s T sp hc hlen s1 hs1
    exact ⟨this.1, Nat.le_of_eq this.2⟩
  | dynamicCast T sp castOk =>
    have := dynamic_pointer_cast_counted s T sp castOk hc hlen s1 hs1
    exact ⟨this.1, Nat.le_of_eq this.2⟩

theorem run_counted (ops : List Op) (s : State) (hc : Counted s)
    (hlen : s.handles.length + ops.length < 2147483648) :
    ∀ s1, run s ops = .ok s1 → Counted s1 := by
  induction ops generalizing s with
  | nil =>
    intro s1 hs1
    simp only [run, Except.ok.injEq] at hs1
    subst hs1
    exact hc
  | cons op ops ih =>
    intro s2 hs2
    simp only [List.length_cons] at hlen
    simp only [run] at hs2
    rcases hstep : step s op with e | s1
    · simp [hstep] at hs2
    · simp only [hstep] at hs2
      obtain ⟨hc1, hl1⟩ := step_counted s op hc (by omega) s1 hstep
      exact ih s1 hc1 (by omega) s2 hs2

theorem counted_empty : Counted State.empty := by
  refine ⟨?_, ?_, ?_⟩
  · intro b cb hb
    simp [State.empty] at hb
  · intro i h hi
    simp [State.empty] at hi
  · intro x hx
    simp [State.empty] at hx

/-- C8 (the claim as stated fails): after `SharedPtr<1> a;` the block of `a` is live,
its count is 0 and one live handle holds it. -/
theorem defaultCtor_count_zero_one_holder :
    run State.empty [.defaultCtor 1] =
      .ok { blocks := [some { destructor := none, refCount := 0, valuePtr := 0 }]
            handles := [some { T := 1, valuePtr := 0, refCounter := some 0 }]
            deleted := [], loads := [] } ∧
    State.count
      { blocks := [some { destructor := none, refCount := 0, valuePtr := 0 }]
        handles := [some { T := 1, valuePtr := 0, refCounter := some 0 }]
        deleted := [], loads := [] } 0 = some 0 ∧
    State.aliasCount
      { blocks := [some { destructor := none, refCount := 0, valuePtr := 0 }]
        handles := [some { T := 1, valuePtr := 0, refCounter := some 0 }]
        deleted := [], loads := [] } 0 = 1 := by
  decide

/-- C8 (as amended): in every state that a program of fewer than 2^31 operations
(default and raw-pointer construction, copy, move, the four assignments, `reset()`,
`reset(p)`, both casts, destruction) reaches without a fault, every live block that
stores an object address has a count equal to the number of live handles holding it,
and every live block that stores `nullptr` has that number or one less as its count. -/
theorem count_matches_holders (ops : List Op) (hlen : ops.length < 2147483648) (s : State)
    (hrun : run State.empty ops = .ok s) (b : Nat) (cb : ControlBlock)
    (hb : s.blocks[b]? = some (some cb)) :
    (cb.valuePtr ≠ 0 → cb.refCount = s.aliasCount b) ∧
    (cb.refCount = s.aliasCount b ∨ cb.refCount + 1 = s.aliasCount b) := by
  have hc := run_counted ops State.empty counted_empty (by simpa [State.empty] using hlen) s hrun
  have h := hc.1 b cb hb
  constructor
  · intro hv
    simp only [hv, if_false] at h
    omega
  · split_ifs at h <;> omega

theorem count_matches_holders_witness :
    ((100 : Ptr) ≠ 0 → (3 : Int) = (State.aliasCount
      { blocks := [some { destructor := none, refCount := 0, valuePtr := 0 },
                   some { destructor := some 2, refCount := 3, valuePtr := 100 },
                   some { destructor := none, refCount := 0, valuePtr := 0 }]
        handles := [some { T := 1, valuePtr := 0, refCounter := some 0 },
                    some { T := 1, valuePtr := 100, refCounter := some 1 },
                    some { T := 1, valuePtr := 100, refCounter := some 1 },
                    some { T := 0, valuePtr := 100, refCounter := some 1 }]
        deleted := [], loads := [] } 1 : Nat)) ∧
    ((3 : Int) = (State.aliasCount
      { blocks := [some { destructor := none, refCount := 0, valuePtr := 0 },
                   some { destructor := some 2, refCount := 3, valuePtr := 100 },
                   some { destructor := none, refCount := 0, valuePtr := 0 }]
        handles := [some { T := 1, valuePtr := 0, refCounter := some 0 },
                    some { T := 1, valuePtr := 100, refCounter := some 1 },
                    some { T := 1, valuePtr := 100, refCounter := some 1 },
                    some { T := 0, valuePtr := 100, refCounter := some 1 }]
        deleted := [], loads := [] } 1 : Nat) ∨
     (3 : Int) + 1 = (State.aliasCount
      { blocks := [some { destructor := none, refCount := 0, valuePtr := 0 },
                   some { destructor := some 2, refCount := 3, valuePtr := 100 },
                   some { destructor := none, refCount := 0, valuePtr := 0 }]
        handles := [some { T := 1, valuePtr := 0, refCounter := some 0 },
                    some { T := 1, valuePtr := 100, refCounter := some 1 },
                    some { T := 1, valuePtr := 100, refCounter := some 1 },
                    some { T := 0, valuePtr := 100, refCounter := some 1 }]
        deleted := [], loads := [] } 1 : Nat)) :=
  count_matches_holders
    [.defaultCtor 1, .rawCtor 1 2 100, .copyCtor 1 1, .staticCast 0 1] (by decide) _
    (by decide) 1 { destructor := some 2, refCount := 3, valuePtr := 100 } (by decide)

/-- C10 (the claim as stated fails): destroying the default-constructed `a` decrements
the count of its block from 0, and the `getRefCount()` of the release check returns
`-1`. -/
theorem getRefCount_returns_minus_one :
    run State.empty [.defaultCtor 1, .destroy 0] =
      .ok { blocks := [none], handles := [none], deleted := [], loads := [-1] } := by
  decide

/-- C10 (as amended): in every state that a program of fewer than 2^31 operations
reaches without a fault, every value `getRefCount()` has returned is at least `-1`, and
every live block has a count of at least 0. -/
theorem getRefCount_ge_minus_one (ops : List Op) (hlen : ops.length < 2147483648) (s : State)
    (hrun : run State.empty ops = .ok s) :
    (∀ x ∈ s.loads, (-1 : Int) ≤ x) ∧
    (∀ (b : Nat) (cb : ControlBlock), s.blocks[b]? = some (some cb) → 0 ≤ cb.getRefCount) := by
  have hc := run_counted ops State.empty counted_empty (by simpa [State.empty] using hlen) s hrun
  exact ⟨hc.2.2, fun b cb hb => (hc.1 b cb hb).1⟩

theorem getRefCount_ge_minus_one_witness :
    (∀ x ∈ State.loads
        { blocks := [none, some { destructor := some 2, refCount := 1, valuePtr := 100 }]
          handles := [none, some { T := 1, valuePtr := 100, refCounter := some 1 }, none]
          deleted := [], loads := [-1, 1] }, (-1 : Int) ≤ x) ∧
    (∀ (b : Nat) (cb : ControlBlock),
      (State.blocks
        { blocks := [none, some { destructor := some 2, refCount := 1, valuePtr := 100 }]
          handles := [none, some { T := 1, valuePtr := 100, refCounter := some 1 }, none]
          deleted := [], loads := [-1, 1] })[b]? = some (some cb) → 0 ≤ cb.getRefCount) :=
  getRefCount_ge_minus_one
    [.defaultCtor 1, .rawCtor 1 2 100, .copyCtor 1 1, .destroy 0, .destroy 2] (by decide) _
    (by decide)


/-! ## The pointer casts -/

theorem static_pointer_cast_live (s : State) (T : TypeId) (sp B : Nat) (hsp : SharedPtr)
    (cb : ControlBlock) (hh : s.handles[sp]? = some (some hsp))
    (hr : hsp.refCounter = some B) (hB : s.blocks[B]? = some (some cb)) :
    static_pointer_cast s T sp = .ok
      { blocks := (s.blocks ++ [some (ControlBlock.new 0)]).set B (some cb.increment)
        handles := s.handles ++ [some ⟨T, hsp.valuePtr, some B⟩]
        deleted := s.deleted
        loads := s.loads } := by
  have hBlt := lt_length_of_getElem_some hB
  simp [-List.getElem?_eq_getElem, static_pointer_cast, State.handle, hh, hr, bind, Except.bind,
    pure, Except.pure, State.newControlBlock, State.increment, State.block, State.pushHandle,
    List.getElem?_append_left hBlt, hB, SharedPtr.get]

theorem dynamic_pointer_cast_live (s : State) (T : TypeId) (sp B : Nat) (castOk : Bool)
    (hsp : SharedPtr) (cb : ControlBlock) (hh : s.handles[sp]? = some (some hsp))
    (hr : hsp.refCounter = some B) (hB : s.blocks[B]? = some (some cb)) :
    dynamic_pointer_cast s T sp castOk = .ok
      { blocks := (s.blocks ++ [some (ControlBlock.new 0)]).set B (some cb.increment)
        handles := s.handles ++ [some ⟨T, if castOk then hsp.valuePtr else 0, some B⟩]
        deleted := s.deleted
        loads := s.loads } := by
  have hBlt := lt_length_of_getElem_some hB
  simp [-List.getElem?_eq_getElem, dynamic_pointer_cast, State.handle, hh, hr, bind,
    Except.bind, pure, Except.pure, State.newControlBlock, State.increment, State.block,
    State.pushHandle, List.getElem?_append_left hBlt, hB, SharedPtr.get]

theorem count_cast_result (s : State) (B : Nat) (cb cb1 : ControlBlock)
    (hs : List (Option SharedPtr)) (hB : s.blocks[B]? = some (some cb)) :
    State.count ⟨(s.blocks ++ [some (ControlBlock.new 0)]).set B (some cb1), hs, s.deleted,
      s.loads⟩ B = some cb1.refCount := by
  have hBlt := lt_length_of_getElem_some hB
  have : B < (s.blocks ++ [some (ControlBlock.new 0)]).length := by
    rw [List.length_append]
    omega
  simp only [State.count, List.getElem?_set_self this]

/-- C11: let `sp` be a live handle whose block `B` is live with count `n`, `n` a
non-negative `int` below `INT_MAX`.  Then `static_pointer_cast<T>(sp)` and
`dynamic_pointer_cast<T>(sp)`, whether the run-time check succeeds or not, return a new
handle that holds `B`, leave the count of `B` at `n + 1`, and leave `sp` as it was. -/
theorem cast_adds_one_reference (s : State) (T : TypeId) (sp B : Nat) (castOk : Bool)
    (hsp : SharedPtr) (n : Int) (hh : s.handle sp = .ok hsp) (hr : hsp.refCounter = some B)
    (hn : s.count B = some n) (h0 : 0 ≤ n) (hmax : n < 2147483647) :
    (∃ s1 r, static_pointer_cast s T sp = .ok s1 ∧
      s1.handle s.handles.length = .ok r ∧ r.refCounter = some B ∧ r.get = hsp.get ∧
      s1.count B = some (n + 1) ∧ s1.handle sp = .ok hsp) ∧
    (∃ s1 r, dynamic_pointer_cast s T sp castOk = .ok s1 ∧
      s1.handle s.handles.length = .ok r ∧ r.refCounter = some B ∧
      r.get = (if castOk then hsp.get else 0) ∧
      s1.count B = some (n + 1) ∧ s1.handle sp = .ok hsp) := by
  have hh1 := handle_eq_ok.mp hh
  have hlt := lt_length_of_getElem_some hh1
  obtain ⟨cb, hB, hcn⟩ := count_eq_some.mp hn
  have hincr : cb.increment.refCount = n + 1 := by
    simp only [ControlBlock.increment, hcn]
    exact wrapInt_of_range (by omega) (by omega)
  constructor
  · refine ⟨_, ⟨T, hsp.valuePtr, some B⟩, static_pointer_cast_live s T sp B hsp cb hh1 hr hB,
      ?_, rfl, rfl, ?_, ?_⟩
    · simp [handle_eq_ok]
    · rw [count_cast_result s B cb _ _ hB, hincr]
    · rw [handle_eq_ok]
      show (s.handles ++ _)[sp]? = _
      rw [List.getElem?_append_left hlt]
      exact hh1
  · refine ⟨_, ⟨T, if castOk then hsp.valuePtr else 0, some B⟩,
      dynamic_pointer_cast_live s T sp B castOk hsp cb hh1 hr hB, ?_, rfl, rfl, ?_, ?_⟩
    · simp [handle_eq_ok]
    · rw [count_cast_result s B cb _ _ hB, hincr]
    · rw [handle_eq_ok]
      show (s.handles ++ _)[sp]? = _
      rw [List.getElem?_append_left hlt]
      exact hh1


/-! ## Releasing a live block -/

theorem reset_live (s : State) (i A : Nat) (h : SharedPtr) (cb : ControlBlock)
    (hh : s.handles[i]? = some (some h)) (hr : h.refCounter = some A)
    (hA : s.blocks[A]? = some (some cb)) :
    reset s i = .ok
      (if cb.decrement.refCount ≤ 0 then
        { blocks := s.blocks.set A none
          handles := s.handles.set i (some ⟨h.T, 0, none⟩)
          deleted := cb.decrement.runDestructor s.deleted
          loads := s.loads ++ [cb.decrement.refCount] }
      else
        { blocks := s.blocks.set A (some cb.decrement)
          handles := s.handles.set i (some ⟨h.T, 0, none⟩)
          deleted := s.deleted
          loads := s.loads ++ [cb.decrement.refCount] }) := by
  have hdc := decrementAndCheck_live s i A h cb hh hr hA
  by_cases hd : cb.decrement.refCount ≤ 0
  · simp only [hd, if_true] at hdc ⊢
    simp [reset, State.handle, hh, hr, bind, Except.bind, pure, Except.pure, hdc,
      State.setHandle, List.set_set]
  · simp only [hd, if_false] at hdc ⊢
    simp [reset, State.handle, hh, hr, bind, Except.bind, pure, Except.pure, hdc,
      State.setHandle]

theorem destroy_live (s : State) (i A : Nat) (h : SharedPtr) (cb : ControlBlock)
    (hh : s.handles[i]? = some (some h)) (hr : h.refCounter = some A)
    (hA : s.blocks[A]? = some (some cb)) :
    destroy s i = .ok
      (if cb.decrement.refCount ≤ 0 then
        { blocks := s.blocks.set A none
          handles := s.handles.set i none
          deleted := cb.decrement.runDestructor s.deleted
          loads := s.loads ++ [cb.decrement.refCount] }
      else
        { blocks := s.blocks.set A (some cb.decrement)
          handles := s.handles.set i none
          deleted := s.deleted
          loads := s.loads ++ [cb.decrement.refCount] }) := by
  have hres := reset_live s i A h cb hh hr hA
  by_cases hd : cb.decrement.refCount ≤ 0
  · simp only [hd, if_true] at hres ⊢
    simp [destroy, hres, bind, Except.bind, pure, Except.pure, List.set_set]
  · simp only [hd, if_false] at hres ⊢
    simp [destroy, hres, bind, Except.bind, pure, Except.pure, List.set_set]

theorem runDestructor_congr (cb cb1 : ControlBlock) (log : List (Ptr × TypeId))
    (hv : cb1.valuePtr = cb.valuePtr) (hd : cb1.destructor = cb.destructor) :
    cb1.runDestructor log = cb.runDestructor log := by
  simp [ControlBlock.runDestructor, hv, hd]


theorem increment_refCount {cb : ControlBlock} (h0 : 0 ≤ cb.refCount)
    (hmax : cb.refCount < 2147483647) : cb.increment.refCount = cb.refCount + 1 := by
  simp only [ControlBlock.increment]
  exact wrapInt_of_range (by omega) (by omega)

theorem decrement_refCount {cb : ControlBlock} (h0 : -2147483647 ≤ cb.refCount)
    (hmax : cb.refCount ≤ 2147483647) : cb.decrement.refCount = cb.refCount - 1 := by
  simp only [ControlBlock.decrement]
  exact wrapInt_of_range (by omega) (by omega)

/-- C12: let `sp` be a live handle whose block `B` is live with a count `n` that
includes `sp` (`1 ≤ n < INT_MAX`).  A `dynamic_pointer_cast<T>(sp)` whose run-time check
fails returns a handle `r` with `get()` null and boolean conversion false that holds
`B`, and the count of `B` is `n + 1`.  Destroying `r` next brings the count back to `n`
with no destructor call, and `sp` is as before.  Destroying `sp` first instead leaves
`B` live with count `n` and no destructor call; destroying `r` after that deletes the
block and runs its destructor when `n = 1`, and leaves the count `n - 1` otherwise. -/
theorem failed_dynamic_cast (s : State) (T : TypeId) (sp B : Nat) (hsp : SharedPtr)
    (cb : ControlBlock) (hh : s.handle sp = .ok hsp) (hr : hsp.refCounter = some B)
    (hB : s.blocks[B]? = some (some cb)) (h1 : 1 ≤ cb.refCount)
    (hmax : cb.refCount < 2147483647) :
    ∃ s1 r, dynamic_pointer_cast s T sp false = .ok s1 ∧
      s1.handle s.handles.length = .ok r ∧ r.get = 0 ∧ r.toBool = false ∧
      r.refCounter = some B ∧ s1.count B = some (cb.refCount + 1) ∧
      (∃ s2, destroy s1 s.handles.length = .ok s2 ∧ s2.count B = some cb.refCount ∧
        s2.deleted = s.deleted ∧ s2.handle sp = .ok hsp) ∧
      (∃ s3 s4, destroy s1 sp = .ok s3 ∧ s3.count B = some cb.refCount ∧
        s3.deleted = s.deleted ∧ destroy s3 s.handles.length = .ok s4 ∧
        (if cb.refCount = 1 then s4.count B = none ∧ s4.deleted = cb.runDestructor s.deleted
         else s4.count B = some (cb.refCount - 1) ∧ s4.deleted = s.deleted)) := by
  have hh1 := handle_eq_ok.mp hh
  have hlt := lt_length_of_getElem_some hh1
  have hBlt := lt_length_of_getElem_some hB
  have hBlt1 : B < (s.blocks ++ [some (ControlBlock.new 0)]).length := by
    rw [List.length_append]
    omega
  have hinc : cb.increment.refCount = cb.refCount + 1 := increment_refCount (by omega) hmax
  have hdec : cb.increment.decrement.refCount = cb.refCount := by
    rw [decrement_refCount (by omega) (by omega), hinc]
    omega
  have hdec2 : cb.increment.decrement.decrement.refCount = cb.refCount - 1 := by
    rw [decrement_refCount (by omega) (by omega), hdec]
  have hcast := dynamic_pointer_cast_live s T sp B false hsp cb hh1 hr hB
  simp only [Bool.false_eq_true, if_false] at hcast
  -- lookups in the state after the cast
  have hr1 : (s.handles ++ [some (SharedPtr.mk T 0 (some B))])[s.handles.length]? =
      some (some ⟨T, 0, some B⟩) := List.getElem?_concat_length _ _
  have hsp1 : (s.handles ++ [some (SharedPtr.mk T 0 (some B))])[sp]? = some (some hsp) := by
    rw [List.getElem?_append_left hlt]
    exact hh1
  have hB1 : ((s.blocks ++ [some (ControlBlock.new 0)]).set B (some cb.increment))[B]? =
      some (some cb.increment) := List.getElem?_set_self hBlt1
  have hd1 := destroy_live ⟨(s.blocks ++ [some (ControlBlock.new 0)]).set B (some cb.increment),
    s.handles ++ [some ⟨T, 0, some B⟩], s.deleted, s.loads⟩ s.handles.length B ⟨T, 0, some B⟩
    cb.increment hr1 rfl hB1
  have hd2 := destroy_live ⟨(s.blocks ++ [some (ControlBlock.new 0)]).set B (some cb.increment),
    s.handles ++ [some ⟨T, 0, some B⟩], s.deleted, s.loads⟩ sp B hsp cb.increment hsp1 hr hB1
  have hpos : ¬ cb.increment.decrement.refCount ≤ 0 := by omega
  simp only [hpos, if_false] at hd1 hd2
  refine ⟨_, ⟨T, 0, some B⟩, hcast, handle_eq_ok.mpr hr1, rfl, rfl, rfl, ?_, ?_, ?_⟩
  · simp only [State.count, hB1, hinc]
  · refine ⟨_, hd1, ?_, rfl, ?_⟩
    · simp only [State.count, List.set_set, List.getElem?_set_self hBlt1, hdec]
    · rw [handle_eq_ok]
      show ((s.handles ++ _).set s.handles.length none)[sp]? = _
      rw [List.getElem?_set_ne (Nat.ne_of_gt hlt)]
      exact hsp1
  · have hr3 : ((s.handles ++ [some (SharedPtr.mk T 0 (some B))]).set sp none)[s.handles.length]?
        = some (some ⟨T, 0, some B⟩) := by
      rw [List.getElem?_set_ne (Nat.ne_of_lt hlt)]
      exact hr1
    have hB3 : (((s.blocks ++ [some (ControlBlock.new 0)]).set B (some cb.increment)).set B
        (some cb.increment.decrement))[B]? = some (some cb.increment.decrement) := by
      rw [List.set_set]
      exact List.getElem?_set_self hBlt1
    have hd3 := destroy_live ⟨((s.blocks ++ [some (ControlBlock.new 0)]).set B
      (some cb.increment)).set B (some cb.increment.decrement),
      (s.handles ++ [some (SharedPtr.mk T 0 (some B))]).set sp none, s.deleted,
      s.loads ++ [cb.increment.decrement.refCount]⟩ s.handles.length B ⟨T, 0, some B⟩
      cb.increment.decrement hr3 rfl hB3
    refine ⟨_, _, hd2, ?_, rfl, hd3, ?_⟩
    · simp only [State.count, hB3, hdec]
    · by_cases hone : cb.refCount = 1
      · have hle : cb.increment.decrement.decrement.refCount ≤ 0 := by omega
        rw [if_pos hle, if_pos hone]
        refine ⟨?_, runDestructor_congr _ _ _ rfl rfl⟩
        simp only [State.count, List.set_set, List.getElem?_set_self hBlt1]
      · have hgt : ¬ cb.increment.decrement.decrement.refCount ≤ 0 := by omega
        rw [if_neg hgt, if_neg hone]
        refine ⟨?_, rfl⟩
        simp only [State.count, List.set_set, List.getElem?_set_self hBlt1, hdec2]


theorem lookup_concat_two_fst {α : Type} (l : List α) (a b : α) :
    (l ++ [a, b])[l.length]? = some a := by
  rw [List.getElem?_append_right (Nat.le_refl _)]
  simp

theorem lookup_concat_two_snd {α : Type} (l : List α) (a b : α) :
    (l ++ [a, b])[l.length + 1]? = some b := by
  rw [List.getElem?_append_right (Nat.le_succ _)]
  simp

theorem set_concat_two_fst {α : Type} (l : List α) (a b x : α) :
    (l ++ [a, b]).set l.length x = l ++ [x, b] := by
  simp [List.set_append]

theorem set_concat_two_snd {α : Type} (l : List α) (a b x : α) :
    (l ++ [a, b]).set (l.length + 1) x = l ++ [a, x] := by
  simp [List.set_append]

/-- C13: in any state, build `a` with `SharedPtr<T>(U *value)` for a non-null `value`
and cast it with `static_pointer_cast<Tc>` or `dynamic_pointer_cast<Tc>` into `c`.  The
block then has count 2 and its destructor is still the one bound to `U`; destroying `a`
leaves the block live with count 1 and no destructor call; destroying `c` deletes the
block and calls `valuePtrDestructor<U>` on `value`, once. -/
theorem cast_keeps_destructor (s : State) (T U Tc : TypeId) (value : Ptr) (castOk : Bool)
    (hv : value ≠ 0) :
    rawCtor s T U value = .ok
      { blocks := s.blocks ++ [some ⟨some U, 1, value⟩]
        handles := s.handles ++ [some ⟨T, value, some s.blocks.length⟩]
        deleted := s.deleted, loads := s.loads } ∧
    static_pointer_cast
      { blocks := s.blocks ++ [some ⟨some U, 1, value⟩]
        handles := s.handles ++ [some ⟨T, value, some s.blocks.length⟩]
        deleted := s.deleted, loads := s.loads } Tc s.handles.length = .ok
      { blocks := s.blocks ++ [some ⟨some U, 2, value⟩, some (ControlBlock.new 0)]
        handles := s.handles ++ [some ⟨T, value, some s.blocks.length⟩,
                                 some ⟨Tc, value, some s.blocks.length⟩]
        deleted := s.deleted, loads := s.loads } ∧
    dynamic_pointer_cast
      { blocks := s.blocks ++ [some ⟨some U, 1, value⟩]
        handles := s.handles ++ [some ⟨T, value, some s.blocks.length⟩]
        deleted := s.deleted, loads := s.loads } Tc s.handles.length castOk = .ok
      { blocks := s.blocks ++ [some ⟨some U, 2, value⟩, some (ControlBlock.new 0)]
        handles := s.handles ++ [some ⟨T, value, some s.blocks.length⟩,
                                 some ⟨Tc, if castOk then value else 0, some s.blocks.length⟩]
        deleted := s.deleted, loads := s.loads } ∧
    ∀ v : Ptr,
      destroy
        { blocks := s.blocks ++ [some ⟨some U, 2, value⟩, some (ControlBlock.new 0)]
          handles := s.handles ++ [some ⟨T, value, some s.blocks.length⟩,
                                   some ⟨Tc, v, some s.blocks.length⟩]
          deleted := s.deleted, loads := s.loads } s.handles.length = .ok
        { blocks := s.blocks ++ [some ⟨some U, 1, value⟩, some (ControlBlock.new 0)]
          handles := s.handles ++ [none, some ⟨Tc, v, some s.blocks.length⟩]
          deleted := s.deleted, loads := s.loads ++ [1] } ∧
      destroy
        { blocks := s.blocks ++ [some ⟨some U, 1, value⟩, some (ControlBlock.new 0)]
          handles := s.handles ++ [none, some ⟨Tc, v, some s.blocks.length⟩]
          deleted := s.deleted, loads := s.loads ++ [1] } (s.handles.length + 1) = .ok
        { blocks := s.blocks ++ [none, some (ControlBlock.new 0)]
          handles := s.handles ++ [none, none]
          deleted := s.deleted ++ [(value, U)], loads := s.loads ++ [1, 0] } := by
  have hw2 : wrapInt (1 + 1) = 2 := by decide
  have hw1 : wrapInt (2 - 1) = 1 := by decide
  have hw0 : wrapInt (1 - 1) = 0 := by decide
  have ha : (s.handles ++ [some (SharedPtr.mk T value (some s.blocks.length))])[
      s.handles.length]? = some (some ⟨T, value, some s.blocks.length⟩) :=
    List.getElem?_concat_length _ _
  have hb : (s.blocks ++ [some (ControlBlock.mk (some U) 1 value)])[s.blocks.length]? =
      some (some ⟨some U, 1, value⟩) := List.getElem?_concat_length _ _
  refine ⟨rawCtor_eq s T U value, ?_, ?_, fun v => ⟨?_, ?_⟩⟩
  · have h := static_pointer_cast_live
      ⟨s.blocks ++ [some ⟨some U, 1, value⟩],
        s.handles ++ [some (SharedPtr.mk T value (some s.blocks.length))], s.deleted, s.loads⟩
      Tc s.handles.length s.blocks.length _ _ ha rfl hb
    simpa [ControlBlock.increment, hw2, List.set_append] using h
  · have h := dynamic_pointer_cast_live
      ⟨s.blocks ++ [some ⟨some U, 1, value⟩],
        s.handles ++ [some (SharedPtr.mk T value (some s.blocks.length))], s.deleted, s.loads⟩
      Tc s.handles.length s.blocks.length castOk _ _ ha rfl hb
    simpa [ControlBlock.increment, hw2, List.set_append] using h
  · have h := destroy_live
      ⟨s.blocks ++ [some ⟨some U, 2, value⟩, some (ControlBlock.new 0)],
        s.handles ++ [some (SharedPtr.mk T value (some s.blocks.length)),
          some (SharedPtr.mk Tc v (some s.blocks.length))], s.deleted, s.loads⟩
      s.handles.length s.blocks.length ⟨T, value, some s.blocks.length⟩ ⟨some U, 2, value⟩
      (lookup_concat_two_fst _ _ _) rfl (lookup_concat_two_fst _ _ _)
    simpa [ControlBlock.decrement, hw1, set_concat_two_fst] using h
  · have h := destroy_live
      ⟨s.blocks ++ [some ⟨some U, 1, value⟩, some (ControlBlock.new 0)],
        s.handles ++ [none, some (SharedPtr.mk Tc v (some s.blocks.length))], s.deleted,
        s.loads ++ [1]⟩
      (s.handles.length + 1) s.blocks.length ⟨Tc, v, some s.blocks.length⟩ ⟨some U, 1, value⟩
      (lookup_concat_two_snd _ _ _) rfl (lookup_concat_two_fst _ _ _)
    simpa [ControlBlock.decrement, hw0, set_concat_two_fst, set_concat_two_snd,
      ControlBlock.runDestructor, valuePtrDestructor, hv] using h


/-! ## `reset(p)` -/

theorem resetPtr_null_block (s : State) (i : Nat) (h : SharedPtr) (U : TypeId) (p : Ptr)
    (hh : s.handles[i]? = some (some h)) (hr : h.refCounter = none) (hp : p ≠ 0) :
    resetPtr s i U p = .ok
      { blocks := s.blocks ++ [some ⟨some U, 1, p⟩]
        handles := s.handles.set i (some ⟨h.T, p, some s.blocks.length⟩)
        deleted := s.deleted
        loads := s.loads } := by
  have hwrap : wrapInt 1 = 1 := by decide
  simp [resetPtr, State.handle, hh, bind, Except.bind, hr, pure, Except.pure,
    State.newControlBlock, State.setHandle, hp, State.increment, State.setDestructor,
    State.block, ControlBlock.increment, ControlBlock.new, hwrap]

theorem resetPtr_live_block (s : State) (i A : Nat) (h : SharedPtr) (cb : ControlBlock)
    (U : TypeId) (p : Ptr) (hh : s.handles[i]? = some (some h)) (hr : h.refCounter = some A)
    (hA : s.blocks[A]? = some (some cb)) (hp : p ≠ 0) :
    resetPtr s i U p = .ok
      (if cb.decrement.refCount ≤ 0 then
        { blocks := s.blocks.set A none ++ [some ⟨some U, 1, p⟩]
          handles := s.handles.set i (some ⟨h.T, p, some s.blocks.length⟩)
          deleted := cb.decrement.runDestructor s.deleted
          loads := s.loads ++ [cb.decrement.refCount] }
      else
        { blocks := s.blocks.set A (some cb.decrement) ++ [some ⟨some U, 1, p⟩]
          handles := s.handles.set i (some ⟨h.T, p, some s.blocks.length⟩)
          deleted := s.deleted
          loads := s.loads ++ [cb.decrement.refCount] }) := by
  have hwrap : wrapInt 1 = 1 := by decide
  have hdc := decrementAndCheck_live s i A h cb hh hr hA
  by_cases hd : cb.decrement.refCount ≤ 0
  · simp only [hd, if_true] at hdc ⊢
    simp [resetPtr, State.handle, hh, bind, Except.bind, hr, pure, Except.pure,
      State.newControlBlock, State.setHandle, hp, State.increment, State.setDestructor,
      State.block, ControlBlock.increment, ControlBlock.new, hwrap, hdc, List.set_set]
  · simp only [hd, if_false] at hdc ⊢
    simp [resetPtr, State.handle, hh, bind, Except.bind, hr, pure, Except.pure,
      State.newControlBlock, State.setHandle, hp, State.increment, State.setDestructor,
      State.block, ControlBlock.increment, ControlBlock.new, hwrap, hdc]

/-- C14 (the claim as stated fails): for the null pointer `reset(p)` binds the handle to
a new block with count 0 and no destructor, while `SharedPtr(p)` makes a block with
count 1 and the destructor bound to `U`. -/
theorem resetPtr_null_differs_from_rawCtor :
    run State.empty [.rawCtor 1 1 100, .resetPtr 0 2 0] =
      .ok { blocks := [none, some { destructor := none, refCount := 0, valuePtr := 0 }]
            handles := [some { T := 1, valuePtr := 0, refCounter := some 1 }]
            deleted := [(100, 1)], loads := [0] } ∧
    run State.empty [.rawCtor 1 2 0] =
      .ok { blocks := [some { destructor := some 2, refCount := 1, valuePtr := 0 }]
            handles := [some { T := 1, valuePtr := 0, refCounter := some 0 }]
            deleted := [], loads := [] } := by
  decide

theorem runDestructor_unbound (cb : ControlBlock) (log : List (Ptr × TypeId))
    (h : cb.valuePtr = 0 ∨ cb.destructor = none) : cb.runDestructor log = log := by
  rcases h with h | h
  · simp [ControlBlock.runDestructor, h]
  · simp [ControlBlock.runDestructor, h]

theorem resetPtr_null_block_nullptr (s : State) (i : Nat) (h : SharedPtr) (U : TypeId)
    (hh : s.handles[i]? = some (some h)) (hr : h.refCounter = none) :
    resetPtr s i U 0 = .ok
      { blocks := s.blocks ++ [some ⟨none, 0, 0⟩]
        handles := s.handles.set i (some ⟨h.T, 0, some s.blocks.length⟩)
        deleted := s.deleted
        loads := s.loads } := by
  simp [resetPtr, State.handle, hh, bind, Except.bind, hr, pure, Except.pure,
    State.newControlBlock, State.setHandle, ControlBlock.new]

theorem resetPtr_live_block_nullptr (s : State) (i A : Nat) (h : SharedPtr) (cb : ControlBlock)
    (U : TypeId) (hh : s.handles[i]? = some (some h)) (hr : h.refCounter = some A)
    (hA : s.blocks[A]? = some (some cb)) :
    resetPtr s i U 0 = .ok
      (if cb.decrement.refCount ≤ 0 then
        { blocks := s.blocks.set A none ++ [some ⟨none, 0, 0⟩]
          handles := s.handles.set i (some ⟨h.T, 0, some s.blocks.length⟩)
          deleted := cb.decrement.runDestructor s.deleted
          loads := s.loads ++ [cb.decrement.refCount] }
      else
        { blocks := s.blocks.set A (some cb.decrement) ++ [some ⟨none, 0, 0⟩]
          handles := s.handles.set i (some ⟨h.T, 0, some s.blocks.length⟩)
          deleted := s.deleted
          loads := s.loads ++ [cb.decrement.refCount] }) := by
  have hdc := decrementAndCheck_live s i A h cb hh hr hA
  by_cases hd : cb.decrement.refCount ≤ 0
  · simp only [hd, if_true] at hdc ⊢
    simp [resetPtr, State.handle, hh, bind, Except.bind, hr, pure, Except.pure,
      State.newControlBlock, State.setHandle, ControlBlock.new, hdc, List.set_set]
  · simp only [hd, if_false] at hdc ⊢
    simp [resetPtr, State.handle, hh, bind, Except.bind, hr, pure, Except.pure,
      State.newControlBlock, State.setHandle, ControlBlock.new, hdc]

/-- The state `reset(p)` returns, for a live handle with a null block pointer. -/
theorem resetPtr_null_block_any (s : State) (i : Nat) (h : SharedPtr) (U : TypeId) (p : Ptr)
    (hh : s.handles[i]? = some (some h)) (hr : h.refCounter = none) :
    resetPtr s i U p = .ok
      { blocks := s.blocks ++ [some (if p ≠ 0 then ⟨some U, 1, p⟩ else ⟨none, 0, 0⟩)]
        handles := s.handles.set i (some ⟨h.T, p, some s.blocks.length⟩)
        deleted := s.deleted
        loads := s.loads } := by
  by_cases hp : p = 0
  · subst hp
    rw [resetPtr_null_block_nullptr s i h U hh hr]
    simp
  · rw [resetPtr_null_block s i h U p hh hr hp]
    simp [hp]

/-- The state `reset(p)` returns, for a live handle that holds the live block `A`. -/
theorem resetPtr_live_block_any (s : State) (i A : Nat) (h : SharedPtr) (cb : ControlBlock)
    (U : TypeId) (p : Ptr) (hh : s.handles[i]? = some (some h)) (hr : h.refCounter = some A)
    (hA : s.blocks[A]? = some (some cb)) :
    resetPtr s i U p = .ok
      { blocks := s.blocks.set A (if cb.decrement.refCount ≤ 0 then none else some cb.decrement)
          ++ [some (if p ≠ 0 then ⟨some U, 1, p⟩ else ⟨none, 0, 0⟩)]
        handles := s.handles.set i (some ⟨h.T, p, some s.blocks.length⟩)
        deleted := if cb.decrement.refCount ≤ 0 then cb.runDestructor s.deleted else s.deleted
        loads := s.loads ++ [cb.decrement.refCount] } := by
  have hrun : cb.decrement.runDestructor s.deleted = cb.runDestructor s.deleted :=
    runDestructor_congr _ _ _ rfl rfl
  by_cases hp : p = 0
  · subst hp
    rw [resetPtr_live_block_nullptr s i A h cb U hh hr hA]
    by_cases hd : cb.decrement.refCount ≤ 0
    · simp [hd, hrun]
    · simp [hd]
  · rw [resetPtr_live_block s i A h cb U p hh hr hA hp]
    by_cases hd : cb.decrement.refCount ≤ 0
    · simp [hd, hrun, hp]
    · simp [hd, hp]

/-- C14 (as amended): let `h` be a live handle whose block pointer is null or points to
a live block, and `p` any pointer.  `h.reset(p)` returns; afterwards the handle has
`get() = p` and holds a new block, at an address no earlier block has, and every other
handle is as before.  For a non-null `p` the new block has count 1, destructor bound to
`U` and pointer `p`: the block `SharedPtr(p)` makes.  For the null pointer the new block
has count 0 and no destructor, where `SharedPtr(p)` makes a block with count 1 and the
destructor bound to `U`.  For either pointer no block other than the old one changes and
the old block has been decremented once (its count is one less, for a count that is an
`int` above `INT_MIN`).  When the decremented count is `<= 0` the old block is deleted,
and its destructor is called exactly once, on the block's pointer, if that pointer is
non-null and a destructor is bound, and not at all otherwise.  When the decremented
count is positive the old block stays, with that count, and no destructor is called. -/
theorem resetPtr_as_rawCtor (s : State) (i : Nat) (h : SharedPtr) (U : TypeId) (p : Ptr)
    (hh : s.handle i = .ok h) (hl : s.nullOrLive h.refCounter = true) :
    ∃ s1 s2, resetPtr s i U p = .ok s1 ∧ rawCtor s h.T U p = .ok s2 ∧
      s1.handle i = .ok ⟨h.T, p, some s.blocks.length⟩ ∧
      s2.handle s.handles.length = .ok ⟨h.T, p, some s.blocks.length⟩ ∧
      s2.blocks[s.blocks.length]? = some (some ⟨some U, 1, p⟩) ∧
      (p ≠ 0 → s1.blocks[s.blocks.length]? = some (some ⟨some U, 1, p⟩)) ∧
      (p = 0 → s1.blocks[s.blocks.length]? = some (some ⟨none, 0, 0⟩)) ∧
      (∀ j, j ≠ i → s1.handles[j]? = s.handles[j]?) ∧
      (h.refCounter = none → s1.deleted = s.deleted ∧ ∀ b, b < s.blocks.length →
        s1.blocks[b]? = s.blocks[b]?) ∧
      (∀ A cb, h.refCounter = some A → s.blocks[A]? = some (some cb) →
        A ≠ s.blocks.length ∧
        (∀ b, b < s.blocks.length → b ≠ A → s1.blocks[b]? = s.blocks[b]?) ∧
        (if cb.decrement.refCount ≤ 0 then
          s1.blocks[A]? = some none ∧
          (∀ V, cb.valuePtr ≠ 0 → cb.destructor = some V →
            s1.deleted = s.deleted ++ [(cb.valuePtr, V)]) ∧
          (cb.valuePtr = 0 ∨ cb.destructor = none → s1.deleted = s.deleted)
        else s1.blocks[A]? = some (some cb.decrement) ∧ s1.deleted = s.deleted) ∧
        (-2147483647 ≤ cb.refCount → cb.refCount ≤ 2147483647 →
          cb.decrement.refCount = cb.refCount - 1)) := by
  have hh1 := handle_eq_ok.mp hh
  have hilt := lt_length_of_getElem_some hh1
  have hraw := rawCtor_eq s h.T U p
  have hoth : ∀ j, j ≠ i →
      (s.handles.set i (some (SharedPtr.mk h.T p (some s.blocks.length))))[j]? =
        s.handles[j]? := fun j hj => List.getElem?_set_ne (Ne.symm hj)
  rcases hr : h.refCounter with _ | A
  · have hres := resetPtr_null_block_any s i h U p hh1 hr
    refine ⟨_, _, hres, hraw, ?_, ?_, ?_, ?_, ?_, hoth, ?_, ?_⟩
    · simp [handle_eq_ok, hilt]
    · simp [handle_eq_ok]
    · simp
    · intro hp
      simp [hp]
    · intro hp
      simp [hp]
    · intro _
      refine ⟨rfl, fun b hb => ?_⟩
      show (s.blocks ++ _)[b]? = _
      rw [List.getElem?_append_left hb]
    · intro A cb hA
      cases hA
  · rw [hr] at hl
    obtain ⟨cb, hA⟩ := nullOrLive_some hl
    have hAlt := lt_length_of_getElem_some hA
    have hres := resetPtr_live_block_any s i A h cb U p hh1 hr hA
    have hnew : ∀ (x : Option ControlBlock) (y : ControlBlock),
        (s.blocks.set A x ++ [some y])[s.blocks.length]? = some (some y) := by
      intro x y
      rw [List.getElem?_append_right (by simp)]
      simp
    refine ⟨_, _, hres, hraw, ?_, ?_, ?_, ?_, ?_, hoth, ?_, ?_⟩
    · simp [handle_eq_ok, hilt]
    · simp [handle_eq_ok]
    · simp
    · intro hp
      rw [if_pos hp]
      exact hnew _ _
    · intro hp
      rw [if_neg (not_not.mpr hp)]
      exact hnew _ _
    · intro hc
      cases hc
    · intro A' cb' hA' hcb'
      cases hA'
      rw [hA] at hcb'
      cases hcb'
      refine ⟨Nat.ne_of_lt hAlt, fun b hb hne => ?_, ?_,
        fun h1 h2 => decrement_refCount h1 h2⟩
      · show (s.blocks.set A _ ++ _)[b]? = _
        rw [List.getElem?_append_left (by simpa using hb), List.getElem?_set_ne (Ne.symm hne)]
      · have hold : ∀ (x : Option ControlBlock) (y : ControlBlock),
            (s.blocks.set A x ++ [some y])[A]? = some x := by
          intro x y
          rw [List.getElem?_append_left (by simpa using hAlt), List.getElem?_set_self hAlt]
        by_cases hd : cb.decrement.refCount ≤ 0
        · rw [if_pos hd]
          refine ⟨?_, fun V hv hV => ?_, fun hu => ?_⟩
          · show (s.blocks.set A _ ++ _)[A]? = _
            rw [hold, if_pos hd]
          · show (if cb.decrement.refCount ≤ 0 then _ else _) = _
            rw [if_pos hd]
            simp [ControlBlock.runDestructor, valuePtrDestructor, hv, hV]
          · show (if cb.decrement.refCount ≤ 0 then _ else _) = _
            rw [if_pos hd, runDestructor_unbound cb _ hu]
        · rw [if_neg hd]
          refine ⟨?_, ?_⟩
          · show (s.blocks.set A _ ++ _)[A]? = _
            rw [hold, if_neg hd]
          · show (if cb.decrement.refCount ≤ 0 then _ else _) = _
            rw [if_neg hd]


/-! ## Equality -/

/-- C15: `p1 == p2` holds exactly when the two handles store the same address, whatever
their blocks; `p == nullptr` and `nullptr == p` hold exactly when `get()` is null, which
is exactly when the boolean conversion is false; two default-constructed handles (each
with a block of its own) are equal to each other and to `nullptr`; two handles that
store different addresses are not equal. -/
theorem equality_compares_addresses :
    (∀ p1 p2 : SharedPtr, opEq p1 p2 = true ↔ p1.get = p2.get) ∧
    (∀ (T1 T2 : TypeId) (a : Ptr) (r1 r2 : Option Nat), opEq ⟨T1, a, r1⟩ ⟨T2, a, r2⟩ = true) ∧
    (∀ p : SharedPtr, (opEqNull p = true ↔ p.get = 0) ∧ (opNullEq p = true ↔ p.get = 0) ∧
      (p.get = 0 ↔ p.toBool = false)) ∧
    run State.empty [.defaultCtor 1, .defaultCtor 1] =
      .ok { blocks := [some { destructor := none, refCount := 0, valuePtr := 0 },
                       some { destructor := none, refCount := 0, valuePtr := 0 }]
            handles := [some { T := 1, valuePtr := 0, refCounter := some 0 },
                        some { T := 1, valuePtr := 0, refCounter := some 1 }]
            deleted := [], loads := [] } ∧
    opEq { T := 1, valuePtr := 0, refCounter := some 0 }
         { T := 1, valuePtr := 0, refCounter := some 1 } = true ∧
    opEqNull { T := 1, valuePtr := 0, refCounter := some 0 } = true ∧
    opNullEq { T := 1, valuePtr := 0, refCounter := some 0 } = true ∧
    (∀ (T1 T2 : TypeId) (a b : Ptr) (r1 r2 : Option Nat),
      opEq ⟨T1, a, r1⟩ ⟨T2, b, r2⟩ = false ↔ a ≠ b) := by
  refine ⟨?_, ?_, ?_, by decide, by decide, by decide, by decide, ?_⟩
  · intro p1 p2
    simp [opEq, SharedPtr.get]
  · intro T1 T2 a r1 r2
    simp [opEq]
  · intro p
    refine ⟨by simp [opEqNull, SharedPtr.get], ?_, by simp [SharedPtr.toBool, SharedPtr.get]⟩
    simp only [opNullEq, SharedPtr.get, decide_eq_true_eq]
    exact eq_comm
  · intro T1 T2 a b r1 r2
    simp [opEq]

/-! ## Null block pointers -/

/-- C18 (the code departs from the claim): after `a.reset()`, or after `a` has been moved
from, each of the four assignments to `a` and each cast of `a` calls a member function
through the null `refCounter`; the same assignment to a default-constructed handle
returns. -/
theorem null_block_is_dereferenced :
    run State.empty [.rawCtor 1 1 100, .rawCtor 1 1 200, .reset 0] =
      .ok { blocks := [none, some { destructor := some 1, refCount := 1, valuePtr := 200 }]
            handles := [some { T := 1, valuePtr := 0, refCounter := none },
                        some { T := 1, valuePtr := 200, refCounter := some 1 }]
            deleted := [(100, 1)], loads := [0] } ∧
    run State.empty [.rawCtor 1 1 100, .rawCtor 1 1 200, .reset 0, .copyAssign 0 1] =
      .error .nullDeref ∧
    run State.empty [.rawCtor 1 1 100, .rawCtor 1 1 200, .reset 0, .moveAssign 0 1] =
      .error .nullDeref ∧
    run State.empty [.rawCtor 1 1 100, .rawCtor 2 2 200, .reset 0, .copyAssign 0 1] =
      .error .nullDeref ∧
    run State.empty [.rawCtor 1 1 100, .rawCtor 2 2 200, .reset 0, .moveAssign 0 1] =
      .error .nullDeref ∧
    run State.empty [.rawCtor 1 1 100, .reset 0, .staticCast 1 0] = .error .nullDeref ∧
    run State.empty [.rawCtor 1 1 100, .reset 0, .dynamicCast 1 0 true] = .error .nullDeref ∧
    run State.empty [.rawCtor 1 1 100, .rawCtor 1 1 200, .moveCtor 1 0, .copyAssign 0 1] =
      .error .nullDeref ∧
    run State.empty [.defaultCtor 1, .rawCtor 1 1 200, .copyAssign 0 1] =
      .ok { blocks := [none, some { destructor := some 1, refCount := 2, valuePtr := 200 }]
            handles := [some { T := 1, valuePtr := 200, refCounter := some 1 },
                        some { T := 1, valuePtr := 200, refCounter := some 1 }]
            deleted := [], loads := [-1] } := by
  decide


/-! ## `reset()` -/

theorem set_same {α : Type} (l : List α) (i : Nat) (x : α) (h : l[i]? = some x) :
    l.set i x = l := by
  induction l generalizing i with
  | nil => simp at h
  | cons a t ih =>
    cases i with
    | zero =>
      simp at h
      subst h
      rfl
    | succ j =>
      simp at h
      simp [ih j h]

theorem reset_null_block (s : State) (i : Nat) (h : SharedPtr)
    (hh : s.handles[i]? = some (some h)) (hr : h.refCounter = none) :
    reset s i = .ok
      { blocks := s.blocks
        handles := s.handles.set i (some ⟨h.T, 0, none⟩)
        deleted := s.deleted
        loads := s.loads } := by
  simp [reset, State.handle, hh, bind, Except.bind, hr, pure, Except.pure, State.setHandle]

/-- The state `reset()` returns, for a live handle that holds the live block `A`. -/
theorem reset_live_any (s : State) (i A : Nat) (h : SharedPtr) (cb : ControlBlock)
    (hh : s.handles[i]? = some (some h)) (hr : h.refCounter = some A)
    (hA : s.blocks[A]? = some (some cb)) :
    reset s i = .ok
      { blocks := s.blocks.set A (if cb.decrement.refCount ≤ 0 then none else some cb.decrement)
        handles := s.handles.set i (some ⟨h.T, 0, none⟩)
        deleted := if cb.decrement.refCount ≤ 0 then cb.runDestructor s.deleted else s.deleted
        loads := s.loads ++ [cb.decrement.refCount] } := by
  have hrun : cb.decrement.runDestructor s.deleted = cb.runDestructor s.deleted :=
    runDestructor_congr _ _ _ rfl rfl
  rw [reset_live s i A h cb hh hr hA]
  by_cases hd : cb.decrement.refCount ≤ 0
  · simp [hd, hrun]
  · simp [hd]


/-- C16: let `h` be a live handle whose block pointer is null or points to a live
block.  `h.reset()` returns; afterwards `h` is null (`get()` null, boolean conversion
false, block pointer null), every other handle is as before and a second `reset()`
changes nothing.  If the block pointer was null, no block and no log changes, and
nothing at all changes when `get()` was null already.  If `h` held the live block `A`,
no other block changes and `A` has been decremented once (its count is one less, for a
count that is an `int` above `INT_MIN`).  When the decremented count is `<= 0` the block
`A` is deleted and the object is destroyed: one call of the bound destructor, on the
block's pointer, is added to the calls made so far (no call when the block's pointer is
null or no destructor is bound).  When the decremented count is positive the block
stays, with that count, and no destructor is called. -/
theorem reset_releases_and_nulls (s : State) (i : Nat) (h : SharedPtr)
    (hh : s.handle i = .ok h) (hl : s.nullOrLive h.refCounter = true) :
    ∃ s1 r, reset s i = .ok s1 ∧ s1.handle i = .ok r ∧
      r.get = 0 ∧ r.toBool = false ∧ r.refCounter = none ∧
      (∀ j, j ≠ i → s1.handles[j]? = s.handles[j]?) ∧
      reset s1 i = .ok s1 ∧
      (h.refCounter = none →
        s1.blocks = s.blocks ∧ s1.deleted = s.deleted ∧ s1.loads = s.loads ∧
        (h.get = 0 → s1 = s)) ∧
      (∀ A cb, h.refCounter = some A → s.blocks[A]? = some (some cb) →
        (∀ b, b ≠ A → s1.blocks[b]? = s.blocks[b]?) ∧
        (if cb.decrement.refCount ≤ 0 then
          s1.blocks[A]? = some none ∧
          (∀ V, cb.valuePtr ≠ 0 → cb.destructor = some V →
            s1.deleted = s.deleted ++ [(cb.valuePtr, V)]) ∧
          (cb.valuePtr = 0 ∨ cb.destructor = none → s1.deleted = s.deleted)
        else s1.blocks[A]? = some (some cb.decrement) ∧ s1.deleted = s.deleted) ∧
        (-2147483647 ≤ cb.refCount → cb.refCount ≤ 2147483647 →
          cb.decrement.refCount = cb.refCount - 1)) := by
  have hh1 := handle_eq_ok.mp hh
  have hilt := lt_length_of_getElem_some hh1
  have hnew : ∀ (bl : List (Option ControlBlock)) (dl : List (Ptr × TypeId)) (ld : List Int),
      (State.mk bl (s.handles.set i (some ⟨h.T, 0, none⟩)) dl ld).handles[i]? =
        some (some ⟨h.T, 0, none⟩) := fun _ _ _ => List.getElem?_set_self hilt
  have hidem : ∀ (bl : List (Option ControlBlock)) (dl : List (Ptr × TypeId)) (ld : List Int),
      reset (State.mk bl (s.handles.set i (some ⟨h.T, 0, none⟩)) dl ld) i =
        .ok (State.mk bl (s.handles.set i (some ⟨h.T, 0, none⟩)) dl ld) := by
    intro bl dl ld
    rw [reset_null_block _ i ⟨h.T, 0, none⟩ (hnew bl dl ld) rfl]
    simp [List.set_set]
  have hoth : ∀ j, j ≠ i → (s.handles.set i (some (SharedPtr.mk h.T 0 none)))[j]? =
      s.handles[j]? := fun j hj => List.getElem?_set_ne (Ne.symm hj)
  rcases hr : h.refCounter with _ | A
  · refine ⟨_, ⟨h.T, 0, none⟩, reset_null_block s i h hh1 hr, handle_eq_ok.mpr (hnew _ _ _),
      rfl, rfl, rfl, hoth, hidem _ _ _, ?_, ?_⟩
    · intro _
      refine ⟨rfl, rfl, rfl, fun hv => ?_⟩
      have hheq : h = ⟨h.T, 0, none⟩ := by
        cases h
        simp only [SharedPtr.get] at hv hr
        simp [hv, hr]
      rw [← hheq, set_same _ _ _ hh1]
    · intro A cb hA
      cases hA
  · rw [hr] at hl
    obtain ⟨cb, hA⟩ := nullOrLive_some hl
    have hAlt := lt_length_of_getElem_some hA
    have hres := reset_live_any s i A h cb hh1 hr hA
    refine ⟨_, ⟨h.T, 0, none⟩, hres, handle_eq_ok.mpr (hnew _ _ _), rfl, rfl, rfl, hoth,
      hidem _ _ _, ?_, ?_⟩
    · intro hc
      cases hc
    · intro A' cb' hA' hcb'
      cases hA'
      rw [hA] at hcb'
      cases hcb'
      refine ⟨fun b hb => List.getElem?_set_ne (Ne.symm hb), ?_,
        fun h1 h2 => decrement_refCount h1 h2⟩
      by_cases hd : cb.decrement.refCount ≤ 0
      · rw [if_pos hd]
        refine ⟨?_, fun V hv hV => ?_, fun hu => ?_⟩
        · show (s.blocks.set A _)[A]? = _
          rw [List.getElem?_set_self hAlt, if_pos hd]
        · show (if cb.decrement.refCount ≤ 0 then _ else _) = _
          rw [if_pos hd]
          simp [ControlBlock.runDestructor, valuePtrDestructor, hv, hV]
        · show (if cb.decrement.refCount ≤ 0 then _ else _) = _
          rw [if_pos hd, runDestructor_unbound cb _ hu]
      · rw [if_neg hd]
        refine ⟨?_, ?_⟩
        · show (s.blocks.set A _)[A]? = _
          rw [List.getElem?_set_self hAlt, if_neg hd]
        · show (if cb.decrement.refCount ≤ 0 then _ else _) = _
          rw [if_neg hd]


/-! ## Two threads releasing one block -/

/-- The three actions of `resetStep`, taken one after the other by one thread, are
`reset()`. -/
theorem resetStep_sequential (s : State) (i j : Nat) (q : ResetPc) :
    interleave i j s .start q [false, false, false] =
      (reset s i).map (fun s1 => (s1, ResetPc.done, q)) := by
  rcases hlook : s.handles[i]? with _ | _ | h
  · simp [interleave, resetStep, reset, State.handle, hlook, bind, Except.bind, Except.map]
  · simp [interleave, resetStep, reset, State.handle, hlook, bind, Except.bind, Except.map]
  · rcases hr : h.refCounter with _ | A
    · simp [interleave, resetStep, reset, State.handle, hlook, bind, Except.bind, Except.map,
        hr, pure, Except.pure]
    · rcases hA : s.blocks[A]? with _ | _ | cb
      · simp [interleave, resetStep, reset, decrementAndCheck, State.handle, hlook, bind,
          Except.bind, Except.map, hr, State.decrement, State.block, hA]
      · simp [interleave, resetStep, reset, decrementAndCheck, State.handle, hlook, bind,
          Except.bind, Except.map, hr, State.decrement, State.block, hA]
      · have hAlt := lt_length_of_getElem_some hA
        have hres := reset_live s i A h cb hlook hr hA
        rw [hres]
        by_cases hd : cb.decrement.refCount ≤ 0
        · simp [-List.getElem?_eq_getElem, interleave, resetStep, State.handle, hlook, bind,
            Except.bind, Except.map, hr, State.decrement, State.block, hA, pure, Except.pure,
            State.getRefCount, ControlBlock.getRefCount, List.getElem?_set, hAlt, hd,
            controlBlockdestructor, State.delete, State.setHandle,
            lt_length_of_getElem_some hlook, List.set_set]
        · simp [-List.getElem?_eq_getElem, interleave, resetStep, State.handle, hlook, bind,
            Except.bind, Except.map, hr, State.decrement, State.block, hA, pure, Except.pure,
            State.getRefCount, ControlBlock.getRefCount, List.getElem?_set, hAlt, hd,
            State.setHandle]

/-- C17 (the code departs from the claim): two handles hold one block of count 2 and two
threads call `reset()`, one on each.  Under the schedule decrement, decrement, load,
load both threads read the count 0, so both pass the test `<= 0`; the first then deletes
the block and the object, and the second deletes the block again.  When the first
thread deletes before the second loads, the second loads from the deleted block.  Only
when one thread finishes before the other starts does exactly one of them delete. -/
theorem concurrent_release_destroys_twice :
    run State.empty [.rawCtor 1 1 100, .copyCtor 1 0] =
      .ok { blocks := [some { destructor := some 1, refCount := 2, valuePtr := 100 }]
            handles := [some { T := 1, valuePtr := 100, refCounter := some 0 },
                        some { T := 1, valuePtr := 100, refCounter := some 0 }]
            deleted := [], loads := [] } ∧
    interleave 0 1
        { blocks := [some { destructor := some 1, refCount := 2, valuePtr := 100 }]
          handles := [some { T := 1, valuePtr := 100, refCounter := some 0 },
                      some { T := 1, valuePtr := 100, refCounter := some 0 }]
          deleted := [], loads := [] } .start .start [false, true, false, true] =
      .ok ({ blocks := [some { destructor := some 1, refCount := 0, valuePtr := 100 }]
             handles := [some { T := 1, valuePtr := 100, refCounter := some 0 },
                         some { T := 1, valuePtr := 100, refCounter := some 0 }]
             deleted := [], loads := [0, 0] }, .loaded 0, .loaded 0) ∧
    interleave 0 1
        { blocks := [some { destructor := some 1, refCount := 2, valuePtr := 100 }]
          handles := [some { T := 1, valuePtr := 100, refCounter := some 0 },
                      some { T := 1, valuePtr := 100, refCounter := some 0 }]
          deleted := [], loads := [] } .start .start [false, true, false, true, false] =
      .ok ({ blocks := [none]
             handles := [some { T := 1, valuePtr := 0, refCounter := none },
                         some { T := 1, valuePtr := 100, refCounter := some 0 }]
             deleted := [(100, 1)], loads := [0, 0] }, .done, .loaded 0) ∧
    interleave 0 1
        { blocks := [some { destructor := some 1, refCount := 2, valuePtr := 100 }]
          handles := [some { T := 1, valuePtr := 100, refCounter := some 0 },
                      some { T := 1, valuePtr := 100, refCounter := some 0 }]
          deleted := [], loads := [] } .start .start [false, true, false, true, false, true] =
      .error .doubleFree ∧
    interleave 0 1
        { blocks := [some { destructor := some 1, refCount := 2, valuePtr := 100 }]
          handles := [some { T := 1, valuePtr := 100, refCounter := some 0 },
                      some { T := 1, valuePtr := 100, refCounter := some 0 }]
          deleted := [], loads := [] } .start .start [false, true, false, false, true] =
      .error .useAfterFree ∧
    interleave 0 1
        { blocks := [some { destructor := some 1, refCount := 2, valuePtr := 100 }]
          handles := [some { T := 1, valuePtr := 100, refCounter := some 0 },
                      some { T := 1, valuePtr := 100, refCounter := some 0 }]
          deleted := [], loads := [] } .start .start [false, false, false, true, true, true] =
      .ok ({ blocks := [none]
             handles := [some { T := 1, valuePtr := 0, refCounter := none },
                         some { T := 1, valuePtr := 0, refCounter := none }]
             deleted := [(100, 1)], loads := [1, 0] }, .done, .done) := by
  decide


theorem cast_adds_one_reference_witness :
    (∃ s1 r,
      static_pointer_cast
        { blocks := [some { destructor := some 1, refCount := 1, valuePtr := 100 }]
          handles := [some { T := 1, valuePtr := 100, refCounter := some 0 }]
          deleted := [], loads := [] } 2 0 = .ok s1 ∧
      s1.handle 1 = .ok r ∧ r.refCounter = some 0 ∧ r.get = 100 ∧
      s1.count 0 = some 2 ∧
      s1.handle 0 = .ok { T := 1, valuePtr := 100, refCounter := some 0 }) ∧
    (∃ s1 r,
      dynamic_pointer_cast
        { blocks := [some { destructor := some 1, refCount := 1, valuePtr := 100 }]
          handles := [some { T := 1, valuePtr := 100, refCounter := some 0 }]
          deleted := [], loads := [] } 2 0 false = .ok s1 ∧
      s1.handle 1 = .ok r ∧ r.refCounter = some 0 ∧ r.get = 0 ∧
      s1.count 0 = some 2 ∧
      s1.handle 0 = .ok { T := 1, valuePtr := 100, refCounter := some 0 }) :=
  cast_adds_one_reference
    { blocks := [some { destructor := some 1, refCount := 1, valuePtr := 100 }]
      handles := [some { T := 1, valuePtr := 100, refCounter := some 0 }]
      deleted := [], loads := [] } 2 0 0 false
    { T := 1, valuePtr := 100, refCounter := some 0 } 1
    (by decide) rfl (by decide) (by decide) (by decide)

theorem failed_dynamic_cast_witness :
    ∃ s1 r,
      dynamic_pointer_cast
        { blocks := [some { destructor := some 1, refCount := 1, valuePtr := 100 }]
          handles := [some { T := 1, valuePtr := 100, refCounter := some 0 }]
          deleted := [], loads := [] } 2 0 false = .ok s1 ∧
      s1.handle 1 = .ok r ∧ r.get = 0 ∧ r.toBool = false ∧
      r.refCounter = some 0 ∧ s1.count 0 = some 2 ∧
      (∃ s2, destroy s1 1 = .ok s2 ∧ s2.count 0 = some 1 ∧ s2.deleted = [] ∧
        s2.handle 0 = .ok { T := 1, valuePtr := 100, refCounter := some 0 }) ∧
      (∃ s3 s4, destroy s1 0 = .ok s3 ∧ s3.count 0 = some 1 ∧ s3.deleted = [] ∧
        destroy s3 1 = .ok s4 ∧ s4.count 0 = none ∧ s4.deleted = [(100, 1)]) :=
  failed_dynamic_cast
    { blocks := [some { destructor := some 1, refCount := 1, valuePtr := 100 }]
      handles := [some { T := 1, valuePtr := 100, refCounter := some 0 }]
      deleted := [], loads := [] } 2 0 0
    { T := 1, valuePtr := 100, refCounter := some 0 }
    { destructor := some 1, refCount := 1, valuePtr := 100 }
    (by decide) rfl (by decide) (by decide) (by decide)

theorem cast_keeps_destructor_witness :
    static_pointer_cast
      { blocks := [some { destructor := some 2, refCount := 1, valuePtr := 100 }]
        handles := [some { T := 2, valuePtr := 100, refCounter := some 0 }]
        deleted := [], loads := [] } 1 0 = .ok
      { blocks := [some { destructor := some 2, refCount := 2, valuePtr := 100 },
                   some { destructor := none, refCount := 0, valuePtr := 0 }]
        handles := [some { T := 2, valuePtr := 100, refCounter := some 0 },
                    some { T := 1, valuePtr := 100, refCounter := some 0 }]
        deleted := [], loads := [] } ∧
    destroy
      { blocks := [some { destructor := some 2, refCount := 2, valuePtr := 100 },
                   some { destructor := none, refCount := 0, valuePtr := 0 }]
        handles := [some { T := 2, valuePtr := 100, refCounter := some 0 },
                    some { T := 1, valuePtr := 100, refCounter := some 0 }]
        deleted := [], loads := [] } 0 = .ok
      { blocks := [some { destructor := some 2, refCount := 1, valuePtr := 100 },
                   some { destructor := none, refCount := 0, valuePtr := 0 }]
        handles := [none, some { T := 1, valuePtr := 100, refCounter := some 0 }]
        deleted := [], loads := [1] } ∧
    destroy
      { blocks := [some { destructor := some 2, refCount := 1, valuePtr := 100 },
                   some { destructor := none, refCount := 0, valuePtr := 0 }]
        handles := [none, some { T := 1, valuePtr := 100, refCounter := some 0 }]
        deleted := [], loads := [1] } 1 = .ok
      { blocks := [none, some { destructor := none, refCount := 0, valuePtr := 0 }]
        handles := [none, none]
        deleted := [(100, 2)], loads := [1, 0] } :=
  ⟨(cast_keeps_destructor State.empty 2 2 1 100 true (by decide)).2.1,
   ((cast_keeps_destructor State.empty 2 2 1 100 true (by decide)).2.2.2 100).1,
   ((cast_keeps_destructor State.empty 2 2 1 100 true (by decide)).2.2.2 100).2⟩

theorem resetPtr_as_rawCtor_witness :
    (∃ s1 s2,
      resetPtr
        { blocks := [some { destructor := some 1, refCount := 1, valuePtr := 100 }]
          handles := [some { T := 1, valuePtr := 100, refCounter := some 0 }]
          deleted := [], loads := [] } 0 2 200 = .ok s1 ∧
      rawCtor
        { blocks := [some { destructor := some 1, refCount := 1, valuePtr := 100 }]
          handles := [some { T := 1, valuePtr := 100, refCounter := some 0 }]
          deleted := [], loads := [] } 1 2 200 = .ok s2 ∧
      s1.handle 0 = .ok { T := 1, valuePtr := 200, refCounter := some 1 } ∧
      s2.handle 1 = .ok { T := 1, valuePtr := 200, refCounter := some 1 } ∧
      s1.blocks[1]? = some (some { destructor := some 2, refCount := 1, valuePtr := 200 }) ∧
      s2.blocks[1]? = some (some { destructor := some 2, refCount := 1, valuePtr := 200 }) ∧
      s1.blocks[0]? = some none ∧ s1.deleted = [(100, 1)]) ∧
    (∃ s1 s2,
      resetPtr
        { blocks := [some { destructor := some 1, refCount := 2, valuePtr := 100 }]
          handles := [some { T := 1, valuePtr := 100, refCounter := some 0 },
                      some { T := 1, valuePtr := 100, refCounter := some 0 }]
          deleted := [], loads := [] } 0 2 0 = .ok s1 ∧
      rawCtor
        { blocks := [some { destructor := some 1, refCount := 2, valuePtr := 100 }]
          handles := [some { T := 1, valuePtr := 100, refCounter := some 0 },
                      some { T := 1, valuePtr := 100, refCounter := some 0 }]
          deleted := [], loads := [] } 1 2 0 = .ok s2 ∧
      s1.handle 0 = .ok { T := 1, valuePtr := 0, refCounter := some 1 } ∧
      s2.handle 2 = .ok { T := 1, valuePtr := 0, refCounter := some 1 } ∧
      s1.blocks[1]? = some (some { destructor := none, refCount := 0, valuePtr := 0 }) ∧
      s2.blocks[1]? = some (some { destructor := some 2, refCount := 1, valuePtr := 0 }) ∧
      s1.blocks[0]? = some (some { destructor := some 1, refCount := 1, valuePtr := 100 }) ∧
      s1.deleted = []) ∧
    (∃ s1 s2,
      resetPtr
        { blocks := [none]
          handles := [some { T := 1, valuePtr := 0, refCounter := none }]
          deleted := [(100, 1)], loads := [0] } 0 2 0 = .ok s1 ∧
      rawCtor
        { blocks := [none]
          handles := [some { T := 1, valuePtr := 0, refCounter := none }]
          deleted := [(100, 1)], loads := [0] } 1 2 0 = .ok s2 ∧
      s1.handle 0 = .ok { T := 1, valuePtr := 0, refCounter := some 1 } ∧
      s2.handle 1 = .ok { T := 1, valuePtr := 0, refCounter := some 1 } ∧
      s1.blocks[1]? = some (some { destructor := none, refCount := 0, valuePtr := 0 }) ∧
      s2.blocks[1]? = some (some { destructor := some 2, refCount := 1, valuePtr := 0 }) ∧
      s1.blocks[0]? = some none ∧ s1.deleted = [(100, 1)]) := by
  refine ⟨?_, ?_, ?_⟩
  · obtain ⟨s1, s2, h1, h2, h3, h4, h5, h6, _, _, _, h10⟩ := resetPtr_as_rawCtor
      { blocks := [some { destructor := some 1, refCount := 1, valuePtr := 100 }]
        handles := [some { T := 1, valuePtr := 100, refCounter := some 0 }]
        deleted := [], loads := [] } 0
      { T := 1, valuePtr := 100, refCounter := some 0 } 2 200
      (by decide) (by decide)
    have h11 := (h10 0 { destructor := some 1, refCount := 1, valuePtr := 100 } rfl rfl).2.2.1
    exact ⟨s1, s2, h1, h2, h3, h4, h6 (by decide), h5, h11.1, h11.2.1 1 (by decide) rfl⟩
  · obtain ⟨s1, s2, h1, h2, h3, h4, h5, _, h7, _, _, h10⟩ := resetPtr_as_rawCtor
      { blocks := [some { destructor := some 1, refCount := 2, valuePtr := 100 }]
        handles := [some { T := 1, valuePtr := 100, refCounter := some 0 },
                    some { T := 1, valuePtr := 100, refCounter := some 0 }]
        deleted := [], loads := [] } 0
      { T := 1, valuePtr := 100, refCounter := some 0 } 2 0
      (by decide) (by decide)
    have h11 := (h10 0 { destructor := some 1, refCount := 2, valuePtr := 100 } rfl rfl).2.2.1
    exact ⟨s1, s2, h1, h2, h3, h4, h7 rfl, h5, h11.1, h11.2⟩
  · obtain ⟨s1, s2, h1, h2, h3, h4, h5, _, h7, _, h9, _⟩ := resetPtr_as_rawCtor
      { blocks := [none]
        handles := [some { T := 1, valuePtr := 0, refCounter := none }]
        deleted := [(100, 1)], loads := [0] } 0
      { T := 1, valuePtr := 0, refCounter := none } 2 0
      (by decide) (by decide)
    exact ⟨s1, s2, h1, h2, h3, h4, h7 rfl, h5, (h9 rfl).2 0 (by decide), (h9 rfl).1⟩

theorem reset_releases_and_nulls_witness :
    (∃ s1 r,
      reset
        { blocks := [some { destructor := some 1, refCount := 1, valuePtr := 100 }]
          handles := [some { T := 1, valuePtr := 100, refCounter := some 0 }]
          deleted := [], loads := [] } 0 = .ok s1 ∧
      s1.handle 0 = .ok r ∧ r.get = 0 ∧ r.toBool = false ∧ r.refCounter = none ∧
      reset s1 0 = .ok s1 ∧
      s1.blocks[0]? = some none ∧
      s1.deleted = [(100, 1)]) ∧
    (∃ s1 r,
      reset
        { blocks := [some { destructor := some 1, refCount := 2, valuePtr := 100 }]
          handles := [some { T := 1, valuePtr := 100, refCounter := some 0 },
                      some { T := 1, valuePtr := 100, refCounter := some 0 }]
          deleted := [], loads := [] } 0 = .ok s1 ∧
      s1.handle 0 = .ok r ∧ r.get = 0 ∧ r.toBool = false ∧ r.refCounter = none ∧
      s1.handles[1]? = some (some { T := 1, valuePtr := 100, refCounter := some 0 }) ∧
      reset s1 0 = .ok s1 ∧
      s1.blocks[0]? = some (some { destructor := some 1, refCount := 1, valuePtr := 100 }) ∧
      s1.deleted = []) := by
  refine ⟨?_, ?_⟩
  · obtain ⟨s1, r, h1, h2, h3, h4, h5, _, h7, _, h9⟩ := reset_releases_and_nulls
      { blocks := [some { destructor := some 1, refCount := 1, valuePtr := 100 }]
        handles := [some { T := 1, valuePtr := 100, refCounter := some 0 }]
        deleted := [], loads := [] } 0
      { T := 1, valuePtr := 100, refCounter := some 0 } (by decide) (by decide)
    have h10 := (h9 0 { destructor := some 1, refCount := 1, valuePtr := 100 } rfl rfl).2.1
    exact ⟨s1, r, h1, h2, h3, h4, h5, h7, h10.1, h10.2.1 1 (by decide) rfl⟩
  · obtain ⟨s1, r, h1, h2, h3, h4, h5, h6, h7, _, h9⟩ := reset_releases_and_nulls
      { blocks := [some { destructor := some 1, refCount := 2, valuePtr := 100 }]
        handles := [some { T := 1, valuePtr := 100, refCounter := some 0 },
                    some { T := 1, valuePtr := 100, refCounter := some 0 }]
        deleted := [], loads := [] } 0
      { T := 1, valuePtr := 100, refCounter := some 0 } (by decide) (by decide)
    have h10 := (h9 0 { destructor := some 1, refCount := 2, valuePtr := 100 } rfl rfl).2.1
    exact ⟨s1, r, h1, h2, h3, h4, h5, h6 1 (by decide), h7, h10.1, h10.2⟩

end cs540
